import Mathlib

/-!
Verification of the advanced-stats core of the MiLB-Tracker repository
(`scripts/calculate_advanced_stats.py`).

The Python data is JSON-shaped dictionaries.  The shallow embedding models:
* strings that the script defaults to `''` (via `dict.get(key, '')`) as plain
  `String`, with `""` standing for a missing or null field (the script treats
  `None` and `''` identically in every use: both are falsy and neither is a
  member of any of the fixed string sets);
* genuinely optional values that the script checks against `None`
  (`trajectory`, `coordX`, ids) as `Option _`;
* numeric values exactly, as `ℕ` / `ℚ` (the script's `round(x, 3)` is modelled
  over `ℚ` as rounding to the nearest multiple of `1/1000`);
* dictionaries that are only read/written pointwise as functions
  `String → Option _` (extensionally identical to the Python dict operations
  used), and dictionary arguments that are iterated as association lists.
-/

/-- Pitch call codes that count as swings (`SWING_CODES`). -/
def SWING_CODES : List String := ["S", "F", "T", "L", "M", "W", "X", "D", "E", "O", "Q", "R"]

/-- Pitch call codes where the batter made contact (`CONTACT_CODES`). -/
def CONTACT_CODES : List String := ["F", "T", "L", "X", "D", "E", "O", "R"]

/-- Pitch call codes that count as called strikes plus whiffs (`CSW_CODES`). -/
def CSW_CODES : List String := ["C", "S", "M", "W", "Q"]

/-- All codes that count as a pitch for the Swing% denominator (`PITCH_CODES`). -/
def PITCH_CODES : List String :=
  ["B", "C", "S", "F", "T", "L", "M", "W", "I", "P", "V", "X", "D", "E", "H", "O", "Q", "R"]

/-- `TRAJECTORY_GB` from the source. -/
def TRAJECTORY_GB : List String := ["ground_ball"]

/-- `TRAJECTORY_FB` from the source. -/
def TRAJECTORY_FB : List String := ["fly_ball", "popup"]

/-- `TRAJECTORY_LD` from the source. -/
def TRAJECTORY_LD : List String := ["line_drive"]

/-- `STRIKEOUT_EVENTS` from the source. -/
def STRIKEOUT_EVENTS : List String := ["strikeout", "strikeout_double_play"]

/-- `WALK_EVENTS` from the source. -/
def WALK_EVENTS : List String := ["walk", "intent_walk", "hit_by_pitch"]

/-- `HIT_EVENTS` from the source. -/
def HIT_EVENTS : List String := ["single", "double", "triple", "home_run"]

/-- `GROUNDBALL_RESULTS` from the source. -/
def GROUNDBALL_RESULTS : List String :=
  ["Groundout", "Bunt Groundout", "Grounded Into DP", "Forceout",
   "Fielders Choice", "Fielders Choice Out", "Double Play"]

/-- `FLYBALL_RESULTS` from the source. -/
def FLYBALL_RESULTS : List String := ["Flyout", "Pop Out", "Sac Fly"]

/-- `LINEDRIVE_RESULTS` from the source. -/
def LINEDRIVE_RESULTS : List String := ["Lineout"]

/-- `PULL_CENTER_LEFT` from the source. -/
def PULL_CENTER_LEFT : ℚ := 100

/-- `PULL_CENTER_RIGHT` from the source. -/
def PULL_CENTER_RIGHT : ℚ := 150

/-- Python `str.lower()` (the strings involved are ASCII). -/
def lowerStr (s : String) : String := String.mk (s.data.map Char.toLower)

/-- Does the character list `pat` occur at the head of `hay`? -/
def matchesAt : List Char → List Char → Bool
  | [], _ => true
  | _ :: _, [] => false
  | p :: ps, c :: cs => p == c && matchesAt ps cs

/-- Does the character list `pat` occur anywhere inside `hay`?  Models the
Python substring test `pat in hay`. -/
def hasSub (pat : List Char) : List Char → Bool
  | [] => matchesAt pat []
  | c :: cs => matchesAt pat (c :: cs) || hasSub pat cs

/-- Python `pat in hay` on strings. -/
def strHasSub (hay pat : String) : Bool := hasSub pat.data hay.data

/-- Batted-ball classification outcome. -/
inductive BBType where
  | GB | FB | LD
deriving DecidableEq

/-- One pitch within an at-bat (`PitchEvent`).  `call` defaults to `""` when
missing (the script reads it with `p.get('call', '')`); `trajectory` and
`coordX` are read with `get` and checked against `None`. -/
structure Pitch where
  call : String
  trajectory : Option String
  coordX : Option ℚ
deriving DecidableEq

/-- One plate appearance, the dictionary passed to `add_at_bat`.  String
fields read with a `''` default are plain `String`s (`""` = missing); ids are
`Option ℕ` (`none` = missing, and the script treats `0` as falsy too);
`pitchCount` is read with `at_bat.get('pitchCount', 0)`, so a missing value is
modelled as `0`.  `balls`/`strikes` are carried by legacy records but are
never read by the source script. -/
structure AtBat where
  batterId : Option ℕ
  pitcherId : Option ℕ
  batterHand : String
  pitcherHand : String
  eventType : String
  result : String
  description : String
  pitches : List Pitch
  pitchCount : ℕ
  balls : ℕ
  strikes : ℕ
deriving DecidableEq

/-- `classify_batted_ball_from_trajectory`: classify using `hitData.trajectory`
from the last pitch (preferred method). -/
def classify_batted_ball_from_trajectory (trajectory : Option String) : Option BBType :=
  match trajectory with
  | none => none
  | some tr =>
    if tr = "" then none
    else
      let t := lowerStr tr
      if t ∈ TRAJECTORY_GB then some BBType.GB
      else if t ∈ TRAJECTORY_FB then some BBType.FB
      else if t ∈ TRAJECTORY_LD then some BBType.LD
      else none

/-- `classify_batted_ball_from_result`: classify using result text and
description (fallback method). -/
def classify_batted_ball_from_result (result event_type description : String) : Option BBType :=
  if result = "" then none
  else if result ∈ GROUNDBALL_RESULTS then some BBType.GB
  else if result ∈ FLYBALL_RESULTS then some BBType.FB
  else if result ∈ LINEDRIVE_RESULTS then some BBType.LD
  else if event_type = "home_run" then some BBType.FB
  else if event_type ∈ HIT_EVENTS ∧ description ≠ "" then
    let d := lowerStr description
    if strHasSub d "ground ball" then some BBType.GB
    else if strHasSub d "line drive" then some BBType.LD
    else if strHasSub d "fly ball" ∨ strHasSub d "pop up" then some BBType.FB
    else none
  else none

/-- `determine_pull_from_coordinates`: `True` = pull, `False` = oppo, `none` =
center or unknown. -/
def determine_pull_from_coordinates (coord_x : Option ℚ) (batter_hand : String) : Option Bool :=
  match coord_x with
  | none => none
  | some cx =>
    if batter_hand = "" ∨ batter_hand = "S" then none
    else if PULL_CENTER_LEFT ≤ cx ∧ cx ≤ PULL_CENTER_RIGHT then none
    else if batter_hand = "R" then some (decide (PULL_CENTER_RIGHT < cx))
    else if batter_hand = "L" then some (decide (cx < PULL_CENTER_LEFT))
    else none

/-- `is_ball_in_play`: the at-bat resulted in a ball in play. -/
def is_ball_in_play (event_type : String) : Bool :=
  if event_type = "" then false
  else decide (event_type ∉ STRIKEOUT_EVENTS ∧ event_type ∉ WALK_EVENTS)

/-- The raw counters held by one `PlayerAdvancedStats` object (the class's
numeric attributes plus the `has_pitch_data` flag). -/
structure Counts where
  ground_balls : ℕ
  fly_balls : ℕ
  line_drives : ℕ
  home_runs : ℕ
  bip_with_direction : ℕ
  pull_hits : ℕ
  air_balls_with_direction : ℕ
  pull_air_balls : ℕ
  total_pitches : ℕ
  swings : ℕ
  contacts : ℕ
  called_strikes_whiffs : ℕ
  has_pitch_data : Bool
deriving DecidableEq

/-- Freshly initialised counters (all zero, `has_pitch_data = False`). -/
def initCounts : Counts :=
  ⟨0, 0, 0, 0, 0, 0, 0, 0, 0, 0, 0, 0, false⟩

/-- Componentwise sum of two counter records (`∨` on the flag).  Used to state
additivity of the accumulator. -/
def addCounts (a b : Counts) : Counts :=
  ⟨a.ground_balls + b.ground_balls, a.fly_balls + b.fly_balls,
   a.line_drives + b.line_drives, a.home_runs + b.home_runs,
   a.bip_with_direction + b.bip_with_direction, a.pull_hits + b.pull_hits,
   a.air_balls_with_direction + b.air_balls_with_direction,
   a.pull_air_balls + b.pull_air_balls, a.total_pitches + b.total_pitches,
   a.swings + b.swings, a.contacts + b.contacts,
   a.called_strikes_whiffs + b.called_strikes_whiffs,
   a.has_pitch_data || b.has_pitch_data⟩

instance : Zero Counts := ⟨initCounts⟩

instance : Add Counts := ⟨addCounts⟩

instance : AddCommMonoid Counts where
  add := (· + ·)
  zero := 0
  nsmul := nsmulRec
  add_assoc a b c := by
    show addCounts (addCounts a b) c = addCounts a (addCounts b c)
    simp [addCounts, Nat.add_assoc, Bool.or_assoc]
  zero_add a := by
    show addCounts initCounts a = a
    simp [addCounts, initCounts]
  add_zero a := by
    show addCounts a initCounts = a
    simp [addCounts, initCounts]
  add_comm a b := by
    show addCounts a b = addCounts b a
    simp [addCounts, Nat.add_comm, Bool.or_comm]

/-- The trajectory of the final pitch of the at-bat (`None` when there are no
pitches, mirroring the `if pitches:` guard in `add_at_bat`). -/
def lastTrajectory (ab : AtBat) : Option String :=
  (ab.pitches.getLast?).bind Pitch.trajectory

/-- The `coordX` of the final pitch of the at-bat. -/
def lastCoordX (ab : AtBat) : Option ℚ :=
  (ab.pitches.getLast?).bind Pitch.coordX

/-- The batted-ball type `add_at_bat` assigns to the at-bat: trajectory of the
last pitch is preferred, result/description parsing is the fallback. -/
def abBBType (ab : AtBat) : Option BBType :=
  match classify_batted_ball_from_trajectory (lastTrajectory ab) with
  | some b => some b
  | none => classify_batted_ball_from_result ab.result ab.eventType ab.description

/-- Batted-ball section of `add_at_bat` (lines 249-271). -/
def bbStage (ab : AtBat) (s : Counts) : Counts :=
  { s with
    ground_balls := s.ground_balls + (if abBBType ab = some BBType.GB then 1 else 0),
    fly_balls := s.fly_balls + (if abBBType ab = some BBType.FB then 1 else 0),
    home_runs := s.home_runs +
      (if abBBType ab = some BBType.FB ∧ ab.eventType = "home_run" then 1 else 0),
    line_drives := s.line_drives + (if abBBType ab = some BBType.LD then 1 else 0) }

/-- The `is_air` flag computed in the pull section of `add_at_bat`. -/
def abIsAir (ab : AtBat) : Bool :=
  let base : Bool := abBBType ab = some BBType.FB || abBBType ab = some BBType.LD
  if ¬ base = true ∧ (lastTrajectory ab).getD "" ≠ "" then
    decide (lowerStr ((lastTrajectory ab).getD "") ∈
      (["fly_ball", "line_drive", "popup"] : List String))
  else base

/-- Pull-stats section of `add_at_bat` (lines 273-291). -/
def pullStage (ab : AtBat) (batter_hand : String) (s : Counts) : Counts :=
  if is_ball_in_play ab.eventType ∧ batter_hand ≠ "" ∧ batter_hand ≠ "S" then
    match determine_pull_from_coordinates (lastCoordX ab) batter_hand with
    | some is_pull =>
      let s := { s with
        bip_with_direction := s.bip_with_direction + 1,
        pull_hits := s.pull_hits + (if is_pull then 1 else 0) }
      if abIsAir ab then
        { s with
          air_balls_with_direction := s.air_balls_with_direction + 1,
          pull_air_balls := s.pull_air_balls + (if is_pull then 1 else 0) }
      else s
    | none => s
  else s

/-- Per-pitch update of the discipline counters (body of the `for p in
pitches` loop). -/
def pitchStep (s : Counts) (p : Pitch) : Counts :=
  if p.call ∈ PITCH_CODES then
    { s with
      total_pitches := s.total_pitches + 1,
      swings := s.swings + (if p.call ∈ SWING_CODES then 1 else 0),
      contacts := s.contacts + (if p.call ∈ CONTACT_CODES then 1 else 0),
      called_strikes_whiffs := s.called_strikes_whiffs +
        (if p.call ∈ CSW_CODES then 1 else 0) }
  else s

/-- Pitch-level section of `add_at_bat` (lines 293-310): per-pitch tallies
when a pitch list is present, otherwise the legacy path that only adds
`pitchCount` to `total_pitches`. -/
def pitchStage (ab : AtBat) (s : Counts) : Counts :=
  if ab.pitches ≠ [] then
    ab.pitches.foldl pitchStep { s with has_pitch_data := true }
  else
    if 0 < ab.pitchCount then { s with total_pitches := s.total_pitches + ab.pitchCount }
    else s

/-- Effect of one `add_at_bat` call on the receiver's own counters (the whole
method body except the split forwarding). -/
def updateCounts (s : Counts) (ab : AtBat) (batter_hand : String) : Counts :=
  pitchStage ab (pullStage ab batter_hand (bbStage ab s))

/-- The contribution of a single at-bat to the counters, starting from zero. -/
def abDelta (ab : AtBat) (batter_hand : String) : Counts :=
  updateCounts initCounts ab batter_hand

/-- The dynamic shape of a `PlayerAdvancedStats` object: its counters plus the
optional `vs_left` / `vs_right` child accumulators (`None` on split
children). -/
inductive PlayerAdvancedStats where
  | mk (counts : Counts) (vs_left : Option PlayerAdvancedStats)
      (vs_right : Option PlayerAdvancedStats)

/-- The counters of an accumulator. -/
def PlayerAdvancedStats.counts : PlayerAdvancedStats → Counts
  | .mk c _ _ => c

/-- The `vs_left` child. -/
def PlayerAdvancedStats.vsLeft : PlayerAdvancedStats → Option PlayerAdvancedStats
  | .mk _ l _ => l

/-- The `vs_right` child. -/
def PlayerAdvancedStats.vsRight : PlayerAdvancedStats → Option PlayerAdvancedStats
  | .mk _ _ r => r

/-- A root accumulator with the given root / vs-left / vs-right counters and
leaf children, the shape `__init__` produces and `add_at_bat` preserves. -/
def mkRoot (c cl cr : Counts) : PlayerAdvancedStats :=
  .mk c (some (.mk cl none none)) (some (.mk cr none none))

/-- `PlayerAdvancedStats.__init__()`: zero counters and two freshly
initialised split children (which themselves have no children). -/
def initAcc : PlayerAdvancedStats := mkRoot initCounts initCounts initCounts

/-- The forwarded call `child.add_at_bat(at_bat, None, batter_hand)` made on a
split child: with the opponent hand cleared the method body updates only the
receiver's own counters and takes neither split branch, so the children of the
child (if any) are untouched. -/
def childAdd (ab : AtBat) (batter_hand : String) : PlayerAdvancedStats → PlayerAdvancedStats
  | .mk c l r => .mk (updateCounts c ab batter_hand) l r

/-- `PlayerAdvancedStats.add_at_bat(at_bat, opponent_hand, batter_hand)`:
update the receiver's counters, then forward the at-bat (with the opponent
hand cleared) to the matching child accumulator when the opponent hand is
`'L'` or `'R'` and that child exists. -/
def PlayerAdvancedStats.add_at_bat (A : PlayerAdvancedStats) (ab : AtBat)
    (opponent_hand batter_hand : String) : PlayerAdvancedStats :=
  match A with
  | .mk c l r =>
    let c' := updateCounts c ab batter_hand
    if opponent_hand = "L" then
      match l with
      | some child => .mk c' (some (childAdd ab batter_hand child)) r
      | none => .mk c' none r
    else if opponent_hand = "R" then
      match r with
      | some child => .mk c' l (some (childAdd ab batter_hand child))
      | none => .mk c' l none
    else .mk c' l r

/-- Python `round(q, 3)` modelled over `ℚ`: round to the nearest multiple of
`1/1000`. -/
def round3 (q : ℚ) : ℚ := (round (1000 * q) : ℤ) / 1000

/-- The dictionary returned by `get_stats`, as a record: a key that the
function does not emit is `none`; `BIP` is always emitted. -/
structure RateStats where
  BIP : ℕ
  gbPct : Option ℚ
  fbPct : Option ℚ
  ldPct : Option ℚ
  hrFb : Option ℚ
  pullPct : Option ℚ
  pullAirPct : Option ℚ
  swingPct : Option ℚ
  contactPct : Option ℚ
  cswPct : Option ℚ
deriving DecidableEq

/-- `PlayerAdvancedStats.get_stats(is_batter, min_bip, min_pitches,
min_direction)` computed from a counter snapshot. -/
def get_stats (c : Counts) (is_batter : Bool) (min_bip min_pitches min_direction : ℕ) :
    RateStats :=
  { BIP := c.ground_balls + c.fly_balls + c.line_drives
    gbPct := if min_bip ≤ c.ground_balls + c.fly_balls + c.line_drives then
        some (round3 ((c.ground_balls : ℚ) /
          ((c.ground_balls + c.fly_balls + c.line_drives : ℕ) : ℚ))) else none
    fbPct := if min_bip ≤ c.ground_balls + c.fly_balls + c.line_drives then
        some (round3 ((c.fly_balls : ℚ) /
          ((c.ground_balls + c.fly_balls + c.line_drives : ℕ) : ℚ))) else none
    ldPct := if min_bip ≤ c.ground_balls + c.fly_balls + c.line_drives then
        some (round3 ((c.line_drives : ℚ) /
          ((c.ground_balls + c.fly_balls + c.line_drives : ℕ) : ℚ))) else none
    hrFb := if min_bip ≤ c.ground_balls + c.fly_balls + c.line_drives ∧ 0 < c.fly_balls then
        some (round3 ((c.home_runs : ℚ) / (c.fly_balls : ℚ))) else none
    pullPct := if is_batter = true ∧ min_direction ≤ c.bip_with_direction then
        some (round3 ((c.pull_hits : ℚ) / (c.bip_with_direction : ℚ))) else none
    pullAirPct := if is_batter = true ∧ min_direction ≤ c.air_balls_with_direction then
        some (round3 ((c.pull_air_balls : ℚ) / (c.air_balls_with_direction : ℚ))) else none
    swingPct := if c.has_pitch_data = true ∧ min_pitches ≤ c.total_pitches then
        some (round3 ((c.swings : ℚ) / (c.total_pitches : ℚ))) else none
    contactPct := if c.has_pitch_data = true ∧ min_pitches ≤ c.total_pitches ∧ 0 < c.swings then
        some (round3 ((c.contacts : ℚ) / (c.swings : ℚ))) else none
    cswPct := if c.has_pitch_data = true ∧ min_pitches ≤ c.total_pitches then
        some (round3 ((c.called_strikes_whiffs : ℚ) / (c.total_pitches : ℚ))) else none }

/-- One `add_at_bat` call site: the at-bat together with the opponent-hand and
batter-hand arguments. -/
abbrev Entry := AtBat × String × String

/-- Apply one entry to an accumulator. -/
def applyEntry (A : PlayerAdvancedStats) (e : Entry) : PlayerAdvancedStats :=
  A.add_at_bat e.1 e.2.1 e.2.2

/-- Feed a list of at-bats to an accumulator, in order. -/
def applyAll (A : PlayerAdvancedStats) (l : List Entry) : PlayerAdvancedStats :=
  l.foldl applyEntry A

/-- The counter contribution of one entry. -/
def entryDelta (e : Entry) : Counts := abDelta e.1 e.2.2

/-- Sum of the counter contributions of a list of entries. -/
def sumDeltas (l : List Entry) : Counts := (l.map entryDelta).sum

/-- One game record as consumed by the aggregation pipeline:
`game.get('level', 'MiLB')`, `game.get('gamePk')`, `game.get('atBats', [])`. -/
structure Game where
  level : Option String
  gamePk : Option ℕ
  atBats : List AtBat

/-- Python truthiness of an optional numeric id (`None` and `0` are falsy). -/
def truthyId (o : Option ℕ) : Bool := o.getD 0 != 0

/-- The four accumulator maps built by `process_games_for_stats`.  Python uses
`defaultdict(PlayerAdvancedStats)`, so the maps are modelled as total
functions whose untouched keys hold a fresh accumulator. -/
@[ext]
structure PipeState where
  batterStats : ℕ → PlayerAdvancedStats
  pitcherStats : ℕ → PlayerAdvancedStats
  batterByLevel : ℕ → String → PlayerAdvancedStats
  pitcherByLevel : ℕ → String → PlayerAdvancedStats

/-- Fresh pipeline state. -/
def initPipe : PipeState :=
  ⟨fun _ => initAcc, fun _ => initAcc, fun _ _ => initAcc, fun _ _ => initAcc⟩

/-- Update a one-key accumulator map at `k`. -/
def updAt (m : ℕ → PlayerAdvancedStats) (k : ℕ) (ab : AtBat) (oh bh : String) :
    ℕ → PlayerAdvancedStats :=
  fun k' => if k' = k then (m k').add_at_bat ab oh bh else m k'

/-- Update a two-key accumulator map at `(k, lvl)`. -/
def updAt2 (m : ℕ → String → PlayerAdvancedStats) (k : ℕ) (lvl : String) (ab : AtBat)
    (oh bh : String) : ℕ → String → PlayerAdvancedStats :=
  fun k' l' => if k' = k ∧ l' = lvl then (m k' l').add_at_bat ab oh bh else m k' l'

/-- Body of the at-bat loop in `process_games_for_stats`: update the batter's
overall and by-level accumulators (opponent hand = pitcher's hand), then the
pitcher's (opponent hand = batter's hand, batter-hand argument `None`). -/
def stepAB (lvl : String) (st : PipeState) (ab : AtBat) : PipeState :=
  let st1 :=
    if truthyId ab.batterId then
      { st with
        batterStats := updAt st.batterStats (ab.batterId.getD 0) ab ab.pitcherHand ab.batterHand,
        batterByLevel :=
          updAt2 st.batterByLevel (ab.batterId.getD 0) lvl ab ab.pitcherHand ab.batterHand }
    else st
  if truthyId ab.pitcherId then
    { st1 with
      pitcherStats := updAt st1.pitcherStats (ab.pitcherId.getD 0) ab ab.batterHand "",
      pitcherByLevel :=
        updAt2 st1.pitcherByLevel (ab.pitcherId.getD 0) lvl ab ab.batterHand "" }
  else st1

/-- `process_games_for_stats(games)`. -/
def process_games_for_stats (games : List Game) : PipeState :=
  games.foldl (fun st g => g.atBats.foldl (stepAB (g.level.getD "MiLB")) st) initPipe

/-- The two per-game accumulator maps built by `process_games_per_game`. -/
@[ext]
structure PerGameState where
  batterPerGame : ℕ → ℕ → PlayerAdvancedStats
  pitcherPerGame : ℕ → ℕ → PlayerAdvancedStats

/-- Fresh per-game state. -/
def initPerGame : PerGameState := ⟨fun _ _ => initAcc, fun _ _ => initAcc⟩

/-- Body of the at-bat loop in `process_games_per_game` for game `pk`. -/
def stepPG (pk : ℕ) (st : PerGameState) (ab : AtBat) : PerGameState :=
  let st1 :=
    if truthyId ab.batterId then
      { st with
        batterPerGame := fun k g => if k = ab.batterId.getD 0 ∧ g = pk then
            (st.batterPerGame k g).add_at_bat ab ab.pitcherHand ab.batterHand
          else st.batterPerGame k g }
    else st
  if truthyId ab.pitcherId then
    { st1 with
      pitcherPerGame := fun k g => if k = ab.pitcherId.getD 0 ∧ g = pk then
          (st1.pitcherPerGame k g).add_at_bat ab ab.batterHand ""
        else st1.pitcherPerGame k g }
  else st1

/-- `process_games_per_game(games)`: games whose `gamePk` is missing or falsy
are skipped (`if not game_pk: continue`). -/
def process_games_per_game (games : List Game) : PerGameState :=
  games.foldl (fun st g =>
    match g.gamePk with
    | some pk => if pk ≠ 0 then g.atBats.foldl (stepPG pk) st else st
    | none => st) initPerGame

/-- Two games are equivalent when they agree on level and gamePk and their
at-bat lists are permutations of one another. -/
def GameEquiv (g₁ g₂ : Game) : Prop :=
  g₁.level = g₂.level ∧ g₁.gamePk = g₂.gamePk ∧ g₁.atBats.Perm g₂.atBats

/-- Two game lists are equivalent when one can be obtained from the other by
permuting the list of games and the at-bats within each game. -/
def GamesEquiv (gs₁ gs₂ : List Game) : Prop :=
  ∃ l, List.Forall₂ GameEquiv gs₁ l ∧ l.Perm gs₂

/-- Exception-explicit access to `pitches[-1]`: Python raises `IndexError` on
an empty list. -/
def lastPitchE (ps : List Pitch) : Except String Pitch :=
  match ps.getLast? with
  | some p => Except.ok p
  | none => Except.error "IndexError"

/-- Exception-explicit version of the body of `add_at_bat` acting on the
receiver's counters: the only operation of the body that can raise on
arbitrary input data is the `pitches[-1]` access, which the source guards
with `if pitches:`. -/
def updateCountsE (s : Counts) (ab : AtBat) (batter_hand : String) : Except String Counts := do
  let lp ← if ab.pitches ≠ [] then (lastPitchE ab.pitches).map some else Except.ok none
  let _trajectory := lp.bind Pitch.trajectory
  let _coord := lp.bind Pitch.coordX
  Except.ok (updateCounts s ab batter_hand)

/-- Exception-explicit `add_at_bat` (counters of the receiver plus the guarded
split forwarding). -/
def addAtBatE (A : PlayerAdvancedStats) (ab : AtBat) (opponent_hand batter_hand : String) :
    Except String PlayerAdvancedStats :=
  match A with
  | .mk c l r => do
    let c' ← updateCountsE c ab batter_hand
    if opponent_hand = "L" then
      match l with
      | some (.mk cl ll lr) => do
        let cl' ← updateCountsE cl ab batter_hand
        Except.ok (.mk c' (some (.mk cl' ll lr)) r)
      | none => Except.ok (.mk c' none r)
    else if opponent_hand = "R" then
      match r with
      | some (.mk cr rl rr) => do
        let cr' ← updateCountsE cr ab batter_hand
        Except.ok (.mk c' l (some (.mk cr' rl rr)))
      | none => Except.ok (.mk c' l none)
    else Except.ok (.mk c' l r)

/-- Division with Python's `ZeroDivisionError` made explicit. -/
def divE (a b : ℚ) : Except String ℚ :=
  if b = 0 then Except.error "ZeroDivisionError" else Except.ok (a / b)

/-- One gated rate computation of `get_stats`, with the division explicit. -/
def gateCalc (cond : Prop) [Decidable cond] (num den : ℚ) : Except String (Option ℚ) :=
  if cond then (divE num den).map (fun q => some (round3 q)) else Except.ok none

/-- Exception-explicit `get_stats`: every division the source performs is done
with `divE` under exactly the source's gating conditions. -/
def getStatsE (c : Counts) (is_batter : Bool) (min_bip min_pitches min_direction : ℕ) :
    Except String RateStats := do
  let gb ← gateCalc (min_bip ≤ c.ground_balls + c.fly_balls + c.line_drives)
    (c.ground_balls : ℚ) ((c.ground_balls + c.fly_balls + c.line_drives : ℕ) : ℚ)
  let fb ← gateCalc (min_bip ≤ c.ground_balls + c.fly_balls + c.line_drives)
    (c.fly_balls : ℚ) ((c.ground_balls + c.fly_balls + c.line_drives : ℕ) : ℚ)
  let ld ← gateCalc (min_bip ≤ c.ground_balls + c.fly_balls + c.line_drives)
    (c.line_drives : ℚ) ((c.ground_balls + c.fly_balls + c.line_drives : ℕ) : ℚ)
  let hr ← gateCalc (min_bip ≤ c.ground_balls + c.fly_balls + c.line_drives ∧ 0 < c.fly_balls)
    (c.home_runs : ℚ) (c.fly_balls : ℚ)
  let pull ← gateCalc (is_batter = true ∧ min_direction ≤ c.bip_with_direction)
    (c.pull_hits : ℚ) (c.bip_with_direction : ℚ)
  let pullAir ← gateCalc (is_batter = true ∧ min_direction ≤ c.air_balls_with_direction)
    (c.pull_air_balls : ℚ) (c.air_balls_with_direction : ℚ)
  let swing ← gateCalc (c.has_pitch_data = true ∧ min_pitches ≤ c.total_pitches)
    (c.swings : ℚ) (c.total_pitches : ℚ)
  let contact ← gateCalc
    (c.has_pitch_data = true ∧ min_pitches ≤ c.total_pitches ∧ 0 < c.swings)
    (c.contacts : ℚ) (c.swings : ℚ)
  let csw ← gateCalc (c.has_pitch_data = true ∧ min_pitches ≤ c.total_pitches)
    (c.called_strikes_whiffs : ℚ) (c.total_pitches : ℚ)
  Except.ok ⟨c.ground_balls + c.fly_balls + c.line_drives, gb, fb, ld, hr, pull, pullAir,
    swing, contact, csw⟩

/-- A stats dictionary (`player_data['batting']`-style), modelled pointwise.
An entry whose value is `None` behaves exactly like an absent entry in the
source (`if value is not None` guards every write), so both are `none`. -/
abbrev StatMap := String → Option ℚ

/-- The empty stats dictionary. -/
def emptyStatMap : StatMap := fun _ => none

/-- A dictionary of stats dictionaries (`battingSplits` / `battingByLevel`). -/
abbrev SplitStore := String → Option StatMap

/-- The empty split store. -/
def emptySplitStore : SplitStore := fun _ => none

/-- The advanced-stat keys `update_player_advanced_stats` removes as stale. -/
def stale_keys : List String := ["Swing%", "Contact%", "CSW%", "Whiff%"]

/-- Pop every stale key from a stats dictionary. -/
def removeStale (m : StatMap) : StatMap := fun k => if k ∈ stale_keys then none else m k

/-- Write every entry of `adv` into `m` (the `for key, value in
adv_stats.items(): if value is not None: ...` loop, read pointwise). -/
def writeAdv (m adv : StatMap) : StatMap :=
  fun k => match adv k with
  | some v => some v
  | none => m k

/-- Build a dictionary from an association list (later entries win, like
repeated dict assignment). -/
def listToMap (l : List (String × ℚ)) : StatMap :=
  l.foldl (fun m kv => fun k => if k = kv.1 then some kv.2 else m k) emptyStatMap

/-- One iteration of the split-writing loop: a split with a non-empty stats
dictionary is stored under its name (`if split_stats:`). -/
def splitWrite (st : SplitStore) (pr : String × List (String × ℚ)) : SplitStore :=
  if pr.2 = [] then st
  else fun n => if n = pr.1 then some (listToMap pr.2) else st n

/-- The whole split-writing loop. -/
def splitWrites (st : SplitStore) (l : List (String × List (String × ℚ))) : SplitStore :=
  l.foldl splitWrite st

/-- One iteration of the by-level loop: ensure the level's dictionary exists,
then merge the level's stats into it key by key. -/
def byLevelWrite (bl : SplitStore) (pr : String × List (String × ℚ)) : SplitStore :=
  fun n => if n = pr.1 then some (writeAdv ((bl pr.1).getD emptyStatMap) (listToMap pr.2))
    else bl n

/-- The whole by-level loop. -/
def byLevelWrites (bl : SplitStore) (l : List (String × List (String × ℚ))) : SplitStore :=
  l.foldl byLevelWrite bl

/-- The three dictionary slots `update_player_advanced_stats` owns for one
stat type: `player_data[stats_key]`, `player_data[f'{stats_key}Splits']`,
`player_data[f'{stats_key}ByLevel']`.  `none` = key absent from the record. -/
@[ext]
structure StatGroup where
  main : Option StatMap
  splitsStore : Option SplitStore
  byLevel : Option SplitStore

/-- A persisted player record, restricted to the keys the function touches. -/
@[ext]
structure PlayerData where
  batting : StatGroup
  pitching : StatGroup

/-- Body of `update_player_advanced_stats` acting on the selected stat type's
three slots.  The split-cleanup loop (`for split_name in list(...keys())`)
pops the stale keys from every stored split dictionary; pointwise that is
`Option.map removeStale` on each entry. -/
def updateGroup (g : StatGroup) (adv : StatMap) (splits : List (String × List (String × ℚ)))
    (lvls : List (String × List (String × ℚ))) : StatGroup :=
  let main1 := writeAdv (removeStale (g.main.getD emptyStatMap)) adv
  let store1 :=
    if splits = [] then g.splitsStore
    else some (fun n => ((splitWrites (g.splitsStore.getD emptySplitStore) splits) n).map
      removeStale)
  let by1 :=
    if lvls = [] then g.byLevel
    else some (byLevelWrites (g.byLevel.getD emptySplitStore) lvls)
  ⟨some main1, store1, by1⟩

/-- `update_player_advanced_stats(player_data, adv_stats, splits, stat_type,
level_stats)`: `statType = true` selects the `batting` keys, `false` the
`pitching` keys.  The `splits` and `level_stats` dictionary arguments are
modelled as association lists (iteration order of `.items()`). -/
def update_player_advanced_stats (p : PlayerData) (adv : StatMap)
    (splits : List (String × List (String × ℚ))) (statType : Bool)
    (lvls : List (String × List (String × ℚ))) : PlayerData :=
  if statType then { p with batting := updateGroup p.batting adv splits lvls }
  else { p with pitching := updateGroup p.pitching adv splits lvls }

/-- The stat-group of a record selected by a stat type. -/
def groupOf (p : PlayerData) (statType : Bool) : StatGroup :=
  if statType then p.batting else p.pitching

/-- Level tag of one game's at-bats, in visit order. -/
def tagLvl (g : Game) : List (String × AtBat) :=
  g.atBats.map (fun ab => (g.level.getD "MiLB", ab))

/-- The level-tagged at-bats of a game list, in the order
`process_games_for_stats` visits them. -/
def flatTagged (games : List Game) : List (String × AtBat) :=
  (games.map tagLvl).flatten

/-- GamePk tag of one game's at-bats (empty when the game is skipped by
`if not game_pk: continue`). -/
def tagPG (g : Game) : List (ℕ × AtBat) :=
  match g.gamePk with
  | some pk => if pk ≠ 0 then g.atBats.map (fun ab => (pk, ab)) else []
  | none => []

/-- The gamePk-tagged at-bats of a game list, in the order
`process_games_per_game` visits them. -/
def flatPG (games : List Game) : List (ℕ × AtBat) :=
  (games.map tagPG).flatten

/-- The batter-overall update performed for one tagged at-bat: target key and
`add_at_bat` arguments, or `none` when the at-bat has no truthy batter id. -/
def selBatter (t : String × AtBat) : Option (ℕ × Entry) :=
  if truthyId t.2.batterId then
    some (t.2.batterId.getD 0, (t.2, t.2.pitcherHand, t.2.batterHand)) else none

/-- The pitcher-overall update performed for one tagged at-bat. -/
def selPitcher (t : String × AtBat) : Option (ℕ × Entry) :=
  if truthyId t.2.pitcherId then
    some (t.2.pitcherId.getD 0, (t.2, t.2.batterHand, "")) else none

/-- The batter-by-level update performed for one tagged at-bat. -/
def selBatterLvl (t : String × AtBat) : Option ((ℕ × String) × Entry) :=
  if truthyId t.2.batterId then
    some ((t.2.batterId.getD 0, t.1), (t.2, t.2.pitcherHand, t.2.batterHand)) else none

/-- The pitcher-by-level update performed for one tagged at-bat. -/
def selPitcherLvl (t : String × AtBat) : Option ((ℕ × String) × Entry) :=
  if truthyId t.2.pitcherId then
    some ((t.2.pitcherId.getD 0, t.1), (t.2, t.2.batterHand, "")) else none

/-- The batter-per-game update performed for one gamePk-tagged at-bat. -/
def selBatterPG (t : ℕ × AtBat) : Option ((ℕ × ℕ) × Entry) :=
  if truthyId t.2.batterId then
    some ((t.2.batterId.getD 0, t.1), (t.2, t.2.pitcherHand, t.2.batterHand)) else none

/-- The pitcher-per-game update performed for one gamePk-tagged at-bat. -/
def selPitcherPG (t : ℕ × AtBat) : Option ((ℕ × ℕ) × Entry) :=
  if truthyId t.2.pitcherId then
    some ((t.2.pitcherId.getD 0, t.1), (t.2, t.2.batterHand, "")) else none

/-- The entries a given key receives from a tagged at-bat list under a
selector. -/
def selEntries {τ κ : Type} [DecidableEq κ] (sel : τ → Option (κ × Entry)) (l : List τ)
    (k : κ) : List Entry :=
  l.filterMap (fun t =>
    match sel t with
    | some ke => if k = ke.1 then some ke.2 else none
    | none => none)

/-- The plate-discipline components of a counter record. -/
def disciplineOf (s : Counts) : ℕ × ℕ × ℕ × ℕ × Bool :=
  (s.total_pitches, s.swings, s.contacts, s.called_strikes_whiffs, s.has_pitch_data)

/-- The batted-ball components of a counter record. -/
def bbOf (s : Counts) : ℕ × ℕ × ℕ × ℕ :=
  (s.ground_balls, s.fly_balls, s.line_drives, s.home_runs)

/-- A legacy at-bat (no pitch list) with `pitchCount=4, balls=1, strikes=2,
eventType="single"`, the input of spec Scenario C. -/
def abLegacyC1 : AtBat :=
  ⟨some 1, some 2, "R", "L", "single", "Single", "", [], 4, 1, 2⟩

/-- A home-run at-bat whose final pitch carries trajectory `ground_ball`. -/
def abHRGB : AtBat :=
  ⟨some 1, some 2, "R", "L", "home_run", "Home Run", "", [⟨"E", some "ground_ball", none⟩], 1, 0, 0⟩

/-- A home-run at-bat whose final pitch carries trajectory `fly_ball`
(spec Scenario B). -/
def abHRFB : AtBat :=
  ⟨some 1, some 2, "R", "L", "home_run", "Home Run", "", [⟨"E", some "fly_ball", none⟩], 1, 0, 0⟩

/-- A single with no pitch list, a result label in no fixed set, and a
description mentioning a ground ball. -/
def abSingleDesc : AtBat :=
  ⟨some 1, some 2, "R", "L", "single", "Single", "Sharp ground ball to left field.", [], 3, 1, 1⟩

/-- A single with no pitch list, a result label in no fixed set, and a
description with no trajectory phrase. -/
def abSinglePlain : AtBat :=
  ⟨some 1, some 2, "R", "L", "single", "Single", "Base hit.", [], 3, 1, 1⟩

/-- An at-bat with every optional field missing. -/
def abBare : AtBat := ⟨none, none, "", "", "", "", "", [], 0, 0, 0⟩

/-- A strikeout at-bat with a two-pitch list. -/
def abK : AtBat :=
  ⟨some 1, some 2, "R", "R", "strikeout", "Strikeout", "",
   [⟨"C", none, none⟩, ⟨"S", none, none⟩], 2, 0, 2⟩

/-- A sample game at level AA. -/
def gW1 : Game := ⟨some "AA", some 100, [abLegacyC1, abK]⟩

/-- The same game with its at-bats swapped. -/
def gW1s : Game := ⟨some "AA", some 100, [abK, abLegacyC1]⟩

/-- A second sample game. -/
def gW2 : Game := ⟨some "AAA", none, [abSinglePlain]⟩

/-- A counter snapshot with 10 classifiable balls in play. -/
def cAtGate : Counts := ⟨5, 3, 2, 1, 0, 0, 0, 0, 60, 30, 20, 10, true⟩

/-- A counter snapshot with 9 classifiable balls in play. -/
def cBelowGate : Counts := ⟨5, 3, 1, 1, 0, 0, 0, 0, 60, 30, 20, 10, true⟩

/-- A persisted record whose batting stats hold an advanced key `GB%` (with
an arbitrary integral value) from an earlier run. -/
def pStale : PlayerData :=
  ⟨⟨some (fun k => if k = "GB%" then some (3 : ℚ) else none), none, none⟩,
   ⟨none, none, none⟩⟩

/-- A mixed entry list: left-handed, right-handed, switch and unknown
opponent hands. -/
def lMixed : List Entry :=
  [(abLegacyC1, "L", "R"), (abK, "R", "R"), (abSinglePlain, "S", "R"), (abHRFB, "", "R")]

/-- An entry list with only left- and right-handed opponents. -/
def lLR : List Entry := [(abLegacyC1, "L", "R"), (abK, "R", "R"), (abHRFB, "L", "R")]

/-- The stats lists written to a given level name by the by-level loop, in
order. -/
def hitVals (l : List (String × List (String × ℚ))) (n : String) : List (List (String × ℚ)) :=
  (l.filter (fun pr => pr.1 == n)).map (fun pr => pr.2)

/-- Merge a list of stats dictionaries into a base dictionary, left to
right. -/
def mergeVals (base : StatMap) (vs : List StatMap) : StatMap :=
  vs.foldl writeAdv base

/-- A non-empty splits argument used to exercise the split-store cleanup. -/
def splitsArgW : List (String × List (String × ℚ)) :=
  [("vsL", [("Swing%", (1 : ℚ)), ("GB%", (2 : ℚ))])]

/-- A non-empty level-stats argument writing only `FB%` to level `AA`. -/
def lvlsArgW : List (String × List (String × ℚ)) := [("AA", [("FB%", (1 : ℚ))])]

theorem counts_add_def (a b : Counts) : a + b = addCounts a b := rfl

theorem counts_zero_def : (0 : Counts) = initCounts := rfl

theorem addCounts_init_right (a : Counts) : addCounts a initCounts = a := by
  simp [addCounts, initCounts]

theorem addCounts_init_left (a : Counts) : addCounts initCounts a = a := by
  simp [addCounts, initCounts]

theorem addCounts_assoc (a b c : Counts) :
    addCounts (addCounts a b) c = addCounts a (addCounts b c) := by
  simp [addCounts, Nat.add_assoc, Bool.or_assoc]

theorem bbStage_add (ab : AtBat) (a b : Counts) :
    bbStage ab (addCounts a b) = addCounts a (bbStage ab b) := by
  simp [bbStage, addCounts, Nat.add_assoc]

theorem pullStage_add (ab : AtBat) (bh : String) (a b : Counts) :
    pullStage ab bh (addCounts a b) = addCounts a (pullStage ab bh b) := by
  unfold pullStage
  split
  · cases hm : determine_pull_from_coordinates (lastCoordX ab) bh with
    | none => rfl
    | some ip =>
      by_cases hair : abIsAir ab = true <;> simp [hair, addCounts, Nat.add_assoc]
  · rfl

theorem pitchStep_add (p : Pitch) (a b : Counts) :
    pitchStep (addCounts a b) p = addCounts a (pitchStep b p) := by
  unfold pitchStep
  split <;> simp [addCounts, Nat.add_assoc]

theorem foldl_pitchStep_add (ps : List Pitch) (a b : Counts) :
    ps.foldl pitchStep (addCounts a b) = addCounts a (ps.foldl pitchStep b) := by
  induction ps generalizing b with
  | nil => rfl
  | cons p t ih => simp only [List.foldl_cons, pitchStep_add, ih]

theorem pitchStage_add (ab : AtBat) (a b : Counts) :
    pitchStage ab (addCounts a b) = addCounts a (pitchStage ab b) := by
  unfold pitchStage
  split
  · have h : { addCounts a b with has_pitch_data := true } =
        addCounts a { b with has_pitch_data := true } := by
      simp [addCounts]
    rw [h, foldl_pitchStep_add]
  · split <;> simp [addCounts, Nat.add_assoc]

theorem updateCounts_add (ab : AtBat) (bh : String) (a b : Counts) :
    updateCounts (addCounts a b) ab bh = addCounts a (updateCounts b ab bh) := by
  unfold updateCounts
  rw [bbStage_add, pullStage_add, pitchStage_add]

theorem updateCounts_eq_add (s : Counts) (ab : AtBat) (bh : String) :
    updateCounts s ab bh = addCounts s (abDelta ab bh) := by
  have h : updateCounts (addCounts s initCounts) ab bh =
      addCounts s (updateCounts initCounts ab bh) := updateCounts_add ab bh s initCounts
  rwa [addCounts_init_right] at h

theorem add_at_bat_mkRoot (c cl cr : Counts) (ab : AtBat) (oh bh : String) :
    (mkRoot c cl cr).add_at_bat ab oh bh =
      mkRoot (updateCounts c ab bh)
        (if oh = "L" then updateCounts cl ab bh else cl)
        (if oh = "R" then updateCounts cr ab bh else cr) := by
  by_cases h1 : oh = "L"
  · subst h1
    simp [PlayerAdvancedStats.add_at_bat, mkRoot, childAdd,
      show ¬ (("L" : String) = "R") by decide]
  · by_cases h2 : oh = "R"
    · subst h2
      simp [PlayerAdvancedStats.add_at_bat, mkRoot, childAdd, h1]
    · simp [PlayerAdvancedStats.add_at_bat, mkRoot, childAdd, h1, h2]

theorem sumDeltas_nil : sumDeltas [] = initCounts := rfl

theorem sumDeltas_cons (e : Entry) (t : List Entry) :
    sumDeltas (e :: t) = addCounts (entryDelta e) (sumDeltas t) := by
  simp [sumDeltas, List.sum_cons, counts_add_def]

theorem sumDeltas_perm {l₁ l₂ : List Entry} (h : l₁.Perm l₂) : sumDeltas l₁ = sumDeltas l₂ :=
  List.Perm.sum_eq (h.map entryDelta)

theorem updateCounts_eq_add' (x : Counts) (e : Entry) :
    updateCounts x e.1 e.2.2 = addCounts x (entryDelta e) :=
  updateCounts_eq_add x e.1 e.2.2

theorem applyAll_mkRoot (l : List Entry) (c cl cr : Counts) :
    applyAll (mkRoot c cl cr) l =
      mkRoot (addCounts c (sumDeltas l))
        (addCounts cl (sumDeltas (l.filter (fun e => e.2.1 == "L"))))
        (addCounts cr (sumDeltas (l.filter (fun e => e.2.1 == "R")))) := by
  induction l generalizing c cl cr with
  | nil => simp [applyAll, sumDeltas_nil, addCounts_init_right]
  | cons e t ih =>
    have step : applyAll (mkRoot c cl cr) (e :: t) =
        applyAll ((mkRoot c cl cr).add_at_bat e.1 e.2.1 e.2.2) t := rfl
    rw [step, add_at_bat_mkRoot, ih]
    by_cases h1 : e.2.1 = "L"
    · have hR : ¬ e.2.1 = "R" := by rw [h1]; decide
      have hfL : List.filter (fun e => e.2.1 == "L") (e :: t) =
          e :: List.filter (fun e => e.2.1 == "L") t := by
        simp [List.filter_cons, h1]
      have hfR : List.filter (fun e => e.2.1 == "R") (e :: t) =
          List.filter (fun e => e.2.1 == "R") t := by
        simp [List.filter_cons, hR]
      rw [if_pos h1, if_neg hR, hfL, hfR, updateCounts_eq_add', updateCounts_eq_add',
        sumDeltas_cons, sumDeltas_cons, ← addCounts_assoc, ← addCounts_assoc]
    · by_cases h2 : e.2.1 = "R"
      · have hfL : List.filter (fun e => e.2.1 == "L") (e :: t) =
            List.filter (fun e => e.2.1 == "L") t := by
          simp [List.filter_cons, h1]
        have hfR : List.filter (fun e => e.2.1 == "R") (e :: t) =
            e :: List.filter (fun e => e.2.1 == "R") t := by
          simp [List.filter_cons, h2]
        rw [if_neg h1, if_pos h2, hfL, hfR, updateCounts_eq_add', updateCounts_eq_add',
          sumDeltas_cons, sumDeltas_cons, ← addCounts_assoc, ← addCounts_assoc]
      · have hfL : List.filter (fun e => e.2.1 == "L") (e :: t) =
            List.filter (fun e => e.2.1 == "L") t := by
          simp [List.filter_cons, h1]
        have hfR : List.filter (fun e => e.2.1 == "R") (e :: t) =
            List.filter (fun e => e.2.1 == "R") t := by
          simp [List.filter_cons, h2]
        rw [if_neg h1, if_neg h2, hfL, hfR, updateCounts_eq_add',
          sumDeltas_cons, ← addCounts_assoc]

theorem applyAll_initAcc (l : List Entry) :
    applyAll initAcc l =
      mkRoot (sumDeltas l) (sumDeltas (l.filter (fun e => e.2.1 == "L")))
        (sumDeltas (l.filter (fun e => e.2.1 == "R"))) := by
  rw [initAcc, applyAll_mkRoot, addCounts_init_left, addCounts_init_left, addCounts_init_left]

theorem applyAll_initAcc_perm {l₁ l₂ : List Entry} (h : l₁.Perm l₂) :
    applyAll initAcc l₁ = applyAll initAcc l₂ := by
  rw [applyAll_initAcc, applyAll_initAcc, sumDeltas_perm h,
    sumDeltas_perm (h.filter (fun e => e.2.1 == "L")),
    sumDeltas_perm (h.filter (fun e => e.2.1 == "R"))]

theorem applyAll_append (A : PlayerAdvancedStats) (l₁ l₂ : List Entry) :
    applyAll A (l₁ ++ l₂) = applyAll (applyAll A l₁) l₂ :=
  List.foldl_append _ _ _ _

theorem selEntries_append {τ κ : Type} [DecidableEq κ] (sel : τ → Option (κ × Entry))
    (l₁ l₂ : List τ) (k : κ) :
    selEntries sel (l₁ ++ l₂) k = selEntries sel l₁ k ++ selEntries sel l₂ k :=
  List.filterMap_append _ _ _

theorem selEntries_perm {τ κ : Type} [DecidableEq κ] (sel : τ → Option (κ × Entry))
    {l₁ l₂ : List τ} (h : l₁.Perm l₂) (k : κ) :
    (selEntries sel l₁ k).Perm (selEntries sel l₂ k) :=
  h.filterMap _

theorem fold_component {κ τ σ : Type} [DecidableEq κ]
    (step : σ → τ → σ) (view : σ → κ → PlayerAdvancedStats) (sel : τ → Option (κ × Entry))
    (hstep : ∀ st t k, view (step st t) k = applyAll (view st k) (selEntries sel [t] k))
    (l : List τ) (st : σ) (k : κ) :
    view (l.foldl step st) k = applyAll (view st k) (selEntries sel l k) := by
  induction l generalizing st with
  | nil => rfl
  | cons t ts ih =>
    simp only [List.foldl_cons]
    rw [ih, hstep, ← applyAll_append, ← selEntries_append, List.singleton_append]

theorem gamesFold_component {κ τ σ : Type} [DecidableEq κ]
    (stepg : σ → Game → σ) (view : σ → κ → PlayerAdvancedStats)
    (tag : Game → List τ) (sel : τ → Option (κ × Entry))
    (hg : ∀ st g k, view (stepg st g) k = applyAll (view st k) (selEntries sel (tag g) k))
    (gs : List Game) (st : σ) (k : κ) :
    view (gs.foldl stepg st) k =
      applyAll (view st k) (selEntries sel ((gs.map tag).flatten) k) := by
  induction gs generalizing st with
  | nil => rfl
  | cons g t ih =>
    simp only [List.foldl_cons, List.map_cons, List.flatten_cons]
    rw [ih, hg, selEntries_append, ← applyAll_append]

theorem atBats_fold_tag (g : Game) (st : PipeState) :
    g.atBats.foldl (stepAB (g.level.getD "MiLB")) st =
      (tagLvl g).foldl (fun st t => stepAB t.1 st t.2) st := by
  rw [tagLvl, List.foldl_map]

theorem stepAB_batterStats (st : PipeState) (t : String × AtBat) (k : ℕ) :
    (stepAB t.1 st t.2).batterStats k =
      applyAll (st.batterStats k) (selEntries selBatter [t] k) := by
  unfold stepAB selBatter updAt selEntries
  by_cases hb : truthyId t.2.batterId <;> by_cases hp : truthyId t.2.pitcherId <;>
    by_cases hk : k = t.2.batterId.getD 0 <;>
      simp [hb, hp, hk, applyEntry, applyAll, List.filterMap_cons]

theorem stepAB_pitcherStats (st : PipeState) (t : String × AtBat) (k : ℕ) :
    (stepAB t.1 st t.2).pitcherStats k =
      applyAll (st.pitcherStats k) (selEntries selPitcher [t] k) := by
  unfold stepAB selPitcher updAt selEntries
  by_cases hb : truthyId t.2.batterId <;> by_cases hp : truthyId t.2.pitcherId <;>
    by_cases hk : k = t.2.pitcherId.getD 0 <;>
      simp [hb, hp, hk, applyEntry, applyAll, List.filterMap_cons]

theorem stepAB_batterByLevel (st : PipeState) (t : String × AtBat) (k : ℕ × String) :
    (stepAB t.1 st t.2).batterByLevel k.1 k.2 =
      applyAll (st.batterByLevel k.1 k.2) (selEntries selBatterLvl [t] k) := by
  unfold stepAB selBatterLvl updAt2 selEntries
  by_cases hb : truthyId t.2.batterId <;> by_cases hp : truthyId t.2.pitcherId <;>
    by_cases hk : k.1 = t.2.batterId.getD 0 ∧ k.2 = t.1 <;>
      simp [hb, hp, hk, applyEntry, applyAll, List.filterMap_cons, Prod.ext_iff]

theorem stepAB_pitcherByLevel (st : PipeState) (t : String × AtBat) (k : ℕ × String) :
    (stepAB t.1 st t.2).pitcherByLevel k.1 k.2 =
      applyAll (st.pitcherByLevel k.1 k.2) (selEntries selPitcherLvl [t] k) := by
  unfold stepAB selPitcherLvl updAt2 selEntries
  by_cases hb : truthyId t.2.batterId <;> by_cases hp : truthyId t.2.pitcherId <;>
    by_cases hk : k.1 = t.2.pitcherId.getD 0 ∧ k.2 = t.1 <;>
      simp [hb, hp, hk, applyEntry, applyAll, List.filterMap_cons, Prod.ext_iff]

theorem stepPG_batterPerGame (st : PerGameState) (t : ℕ × AtBat) (k : ℕ × ℕ) :
    (stepPG t.1 st t.2).batterPerGame k.1 k.2 =
      applyAll (st.batterPerGame k.1 k.2) (selEntries selBatterPG [t] k) := by
  unfold stepPG selBatterPG selEntries
  by_cases hb : truthyId t.2.batterId <;> by_cases hp : truthyId t.2.pitcherId <;>
    by_cases hk : k.1 = t.2.batterId.getD 0 ∧ k.2 = t.1 <;>
      simp [hb, hp, hk, applyEntry, applyAll, List.filterMap_cons, Prod.ext_iff]

theorem stepPG_pitcherPerGame (st : PerGameState) (t : ℕ × AtBat) (k : ℕ × ℕ) :
    (stepPG t.1 st t.2).pitcherPerGame k.1 k.2 =
      applyAll (st.pitcherPerGame k.1 k.2) (selEntries selPitcherPG [t] k) := by
  unfold stepPG selPitcherPG selEntries
  by_cases hb : truthyId t.2.batterId <;> by_cases hp : truthyId t.2.pitcherId <;>
    by_cases hk : k.1 = t.2.pitcherId.getD 0 ∧ k.2 = t.1 <;>
      simp [hb, hp, hk, applyEntry, applyAll, List.filterMap_cons, Prod.ext_iff]

theorem pgs_batterStats (gs : List Game) (k : ℕ) :
    (process_games_for_stats gs).batterStats k =
      applyAll initAcc (selEntries selBatter (flatTagged gs) k) := by
  have hg : ∀ (st : PipeState) (g : Game) (k : ℕ),
      (g.atBats.foldl (stepAB (g.level.getD "MiLB")) st).batterStats k =
        applyAll (st.batterStats k) (selEntries selBatter (tagLvl g) k) := by
    intro st g k
    rw [atBats_fold_tag]
    exact fold_component (fun st t => stepAB t.1 st t.2) (fun st k => st.batterStats k)
      selBatter (fun st t k => stepAB_batterStats st t k) (tagLvl g) st k
  exact gamesFold_component _ (fun st k => st.batterStats k) tagLvl selBatter hg gs initPipe k

theorem pgs_pitcherStats (gs : List Game) (k : ℕ) :
    (process_games_for_stats gs).pitcherStats k =
      applyAll initAcc (selEntries selPitcher (flatTagged gs) k) := by
  have hg : ∀ (st : PipeState) (g : Game) (k : ℕ),
      (g.atBats.foldl (stepAB (g.level.getD "MiLB")) st).pitcherStats k =
        applyAll (st.pitcherStats k) (selEntries selPitcher (tagLvl g) k) := by
    intro st g k
    rw [atBats_fold_tag]
    exact fold_component (fun st t => stepAB t.1 st t.2) (fun st k => st.pitcherStats k)
      selPitcher (fun st t k => stepAB_pitcherStats st t k) (tagLvl g) st k
  exact gamesFold_component _ (fun st k => st.pitcherStats k) tagLvl selPitcher hg gs initPipe k

theorem pgs_batterByLevel (gs : List Game) (pid : ℕ) (lvl : String) :
    (process_games_for_stats gs).batterByLevel pid lvl =
      applyAll initAcc (selEntries selBatterLvl (flatTagged gs) (pid, lvl)) := by
  have hg : ∀ (st : PipeState) (g : Game) (k : ℕ × String),
      (fun (st : PipeState) (k : ℕ × String) => st.batterByLevel k.1 k.2)
          (g.atBats.foldl (stepAB (g.level.getD "MiLB")) st) k =
        applyAll (st.batterByLevel k.1 k.2) (selEntries selBatterLvl (tagLvl g) k) := by
    intro st g k
    rw [atBats_fold_tag]
    exact fold_component (fun st t => stepAB t.1 st t.2)
      (fun (st : PipeState) (k : ℕ × String) => st.batterByLevel k.1 k.2)
      selBatterLvl (fun st t k => stepAB_batterByLevel st t k) (tagLvl g) st k
  exact gamesFold_component _ (fun (st : PipeState) (k : ℕ × String) => st.batterByLevel k.1 k.2)
    tagLvl selBatterLvl hg gs initPipe (pid, lvl)

theorem pgs_pitcherByLevel (gs : List Game) (pid : ℕ) (lvl : String) :
    (process_games_for_stats gs).pitcherByLevel pid lvl =
      applyAll initAcc (selEntries selPitcherLvl (flatTagged gs) (pid, lvl)) := by
  have hg : ∀ (st : PipeState) (g : Game) (k : ℕ × String),
      (fun (st : PipeState) (k : ℕ × String) => st.pitcherByLevel k.1 k.2)
          (g.atBats.foldl (stepAB (g.level.getD "MiLB")) st) k =
        applyAll (st.pitcherByLevel k.1 k.2) (selEntries selPitcherLvl (tagLvl g) k) := by
    intro st g k
    rw [atBats_fold_tag]
    exact fold_component (fun st t => stepAB t.1 st t.2)
      (fun (st : PipeState) (k : ℕ × String) => st.pitcherByLevel k.1 k.2)
      selPitcherLvl (fun st t k => stepAB_pitcherByLevel st t k) (tagLvl g) st k
  exact gamesFold_component _ (fun (st : PipeState) (k : ℕ × String) => st.pitcherByLevel k.1 k.2)
    tagLvl selPitcherLvl hg gs initPipe (pid, lvl)

theorem stepg_perGame (st : PerGameState) (g : Game) (k : ℕ × ℕ) :
    (fun (st : PerGameState) (k : ℕ × ℕ) => st.batterPerGame k.1 k.2)
        ((match g.gamePk with
          | some pk => if pk ≠ 0 then g.atBats.foldl (stepPG pk) st else st
          | none => st)) k =
      applyAll (st.batterPerGame k.1 k.2) (selEntries selBatterPG (tagPG g) k) := by
  cases hpk : g.gamePk with
  | none => simp [tagPG, hpk, selEntries, applyAll]
  | some pk =>
    dsimp only
    by_cases hz : pk ≠ 0
    · rw [if_pos hz]
      have htag : g.atBats.foldl (stepPG pk) st =
          (tagPG g).foldl (fun st t => stepPG t.1 st t.2) st := by
        unfold tagPG
        rw [hpk]
        dsimp only
        rw [if_pos hz, List.foldl_map]
      rw [htag]
      exact fold_component (fun st t => stepPG t.1 st t.2)
        (fun (st : PerGameState) (k : ℕ × ℕ) => st.batterPerGame k.1 k.2)
        selBatterPG (fun st t k => stepPG_batterPerGame st t k) (tagPG g) st k
    · rw [if_neg hz]
      simp [tagPG, hpk, hz, selEntries, applyAll]

theorem stepg_perGameP (st : PerGameState) (g : Game) (k : ℕ × ℕ) :
    (fun (st : PerGameState) (k : ℕ × ℕ) => st.pitcherPerGame k.1 k.2)
        ((match g.gamePk with
          | some pk => if pk ≠ 0 then g.atBats.foldl (stepPG pk) st else st
          | none => st)) k =
      applyAll (st.pitcherPerGame k.1 k.2) (selEntries selPitcherPG (tagPG g) k) := by
  cases hpk : g.gamePk with
  | none => simp [tagPG, hpk, selEntries, applyAll]
  | some pk =>
    dsimp only
    by_cases hz : pk ≠ 0
    · rw [if_pos hz]
      have htag : g.atBats.foldl (stepPG pk) st =
          (tagPG g).foldl (fun st t => stepPG t.1 st t.2) st := by
        unfold tagPG
        rw [hpk]
        dsimp only
        rw [if_pos hz, List.foldl_map]
      rw [htag]
      exact fold_component (fun st t => stepPG t.1 st t.2)
        (fun (st : PerGameState) (k : ℕ × ℕ) => st.pitcherPerGame k.1 k.2)
        selPitcherPG (fun st t k => stepPG_pitcherPerGame st t k) (tagPG g) st k
    · rw [if_neg hz]
      simp [tagPG, hpk, hz, selEntries, applyAll]

theorem ppg_batterPerGame (gs : List Game) (pid gpk : ℕ) :
    (process_games_per_game gs).batterPerGame pid gpk =
      applyAll initAcc (selEntries selBatterPG (flatPG gs) (pid, gpk)) :=
  gamesFold_component _ (fun (st : PerGameState) (k : ℕ × ℕ) => st.batterPerGame k.1 k.2)
    tagPG selBatterPG (fun st g k => stepg_perGame st g k) gs initPerGame (pid, gpk)

theorem ppg_pitcherPerGame (gs : List Game) (pid gpk : ℕ) :
    (process_games_per_game gs).pitcherPerGame pid gpk =
      applyAll initAcc (selEntries selPitcherPG (flatPG gs) (pid, gpk)) :=
  gamesFold_component _ (fun (st : PerGameState) (k : ℕ × ℕ) => st.pitcherPerGame k.1 k.2)
    tagPG selPitcherPG (fun st g k => stepg_perGameP st g k) gs initPerGame (pid, gpk)

theorem tagLvl_perm {g₁ g₂ : Game} (h : GameEquiv g₁ g₂) : (tagLvl g₁).Perm (tagLvl g₂) := by
  obtain ⟨hl, _, hab⟩ := h
  unfold tagLvl
  rw [hl]
  exact hab.map _

theorem tagPG_perm {g₁ g₂ : Game} (h : GameEquiv g₁ g₂) : (tagPG g₁).Perm (tagPG g₂) := by
  obtain ⟨_, hpk, hab⟩ := h
  unfold tagPG
  rw [hpk]
  cases g₂.gamePk with
  | none => exact List.Perm.refl _
  | some pk =>
    dsimp only
    by_cases hz : pk ≠ 0
    · rw [if_pos hz, if_pos hz]
      exact hab.map _
    · rw [if_neg hz, if_neg hz]

theorem flatTagged_perm {gs₁ gs₂ : List Game} (h : GamesEquiv gs₁ gs₂) :
    (flatTagged gs₁).Perm (flatTagged gs₂) := by
  obtain ⟨mid, hf, hp⟩ := h
  have h1 : List.Forall₂ (fun a b => a.Perm b) (gs₁.map tagLvl) (mid.map tagLvl) := by
    clear hp
    induction hf with
    | nil => exact .nil
    | cons hgame _ ih => exact .cons (tagLvl_perm hgame) ih
  exact (List.Perm.flatten_congr h1).trans ((hp.map tagLvl).flatten)

theorem flatPG_perm {gs₁ gs₂ : List Game} (h : GamesEquiv gs₁ gs₂) :
    (flatPG gs₁).Perm (flatPG gs₂) := by
  obtain ⟨mid, hf, hp⟩ := h
  have h1 : List.Forall₂ (fun a b => a.Perm b) (gs₁.map tagPG) (mid.map tagPG) := by
    clear hp
    induction hf with
    | nil => exact .nil
    | cons hgame _ ih => exact .cons (tagPG_perm hgame) ih
  exact (List.Perm.flatten_congr h1).trans ((hp.map tagPG).flatten)

theorem counts_add_at_bat (A : PlayerAdvancedStats) (ab : AtBat) (oh bh : String) :
    (A.add_at_bat ab oh bh).counts = updateCounts A.counts ab bh := by
  cases A with
  | mk c l r =>
    by_cases h1 : oh = "L"
    · cases l <;> simp [PlayerAdvancedStats.add_at_bat, h1, PlayerAdvancedStats.counts]
    · by_cases h2 : oh = "R"
      · cases r <;>
          simp [PlayerAdvancedStats.add_at_bat, h1, h2, PlayerAdvancedStats.counts]
      · simp [PlayerAdvancedStats.add_at_bat, h1, h2, PlayerAdvancedStats.counts]

theorem bbStage_disciplineOf (ab : AtBat) (s : Counts) :
    disciplineOf (bbStage ab s) = disciplineOf s := rfl

theorem pullStage_disciplineOf (ab : AtBat) (bh : String) (s : Counts) :
    disciplineOf (pullStage ab bh s) = disciplineOf s := by
  unfold pullStage
  split
  · cases determine_pull_from_coordinates (lastCoordX ab) bh with
    | none => rfl
    | some ip => by_cases h : abIsAir ab = true <;> simp [h, disciplineOf]
  · rfl

theorem pullStage_bbOf (ab : AtBat) (bh : String) (s : Counts) :
    bbOf (pullStage ab bh s) = bbOf s := by
  unfold pullStage
  split
  · cases determine_pull_from_coordinates (lastCoordX ab) bh with
    | none => rfl
    | some ip => by_cases h : abIsAir ab = true <;> simp [h, bbOf]
  · rfl

theorem pitchStep_bbOf (s : Counts) (p : Pitch) : bbOf (pitchStep s p) = bbOf s := by
  unfold pitchStep
  split <;> rfl

theorem foldl_pitchStep_bbOf (ps : List Pitch) (s : Counts) :
    bbOf (ps.foldl pitchStep s) = bbOf s := by
  induction ps generalizing s with
  | nil => rfl
  | cons p t ih => rw [List.foldl_cons, ih, pitchStep_bbOf]

theorem pitchStage_bbOf (ab : AtBat) (s : Counts) :
    bbOf (pitchStage ab s) = bbOf s := by
  unfold pitchStage
  split
  · rw [foldl_pitchStep_bbOf]
    rfl
  · split <;> rfl

theorem pitchStage_legacy (ab : AtBat) (s : Counts) (h : ab.pitches = []) :
    pitchStage ab s =
      if 0 < ab.pitchCount then { s with total_pitches := s.total_pitches + ab.pitchCount }
      else s := by
  unfold pitchStage
  rw [h]
  simp

theorem updateCounts_bbOf (s : Counts) (ab : AtBat) (bh : String) :
    bbOf (updateCounts s ab bh) = bbOf (bbStage ab s) := by
  unfold updateCounts
  rw [pitchStage_bbOf, pullStage_bbOf]

theorem updateCounts_legacy (s : Counts) (ab : AtBat) (bh : String) (h : ab.pitches = []) :
    (updateCounts s ab bh).total_pitches = s.total_pitches + ab.pitchCount ∧
    (updateCounts s ab bh).swings = s.swings ∧
    (updateCounts s ab bh).contacts = s.contacts ∧
    (updateCounts s ab bh).called_strikes_whiffs = s.called_strikes_whiffs ∧
    (updateCounts s ab bh).has_pitch_data = s.has_pitch_data := by
  have hd : disciplineOf (pullStage ab bh (bbStage ab s)) = disciplineOf s := by
    rw [pullStage_disciplineOf, bbStage_disciplineOf]
  simp only [disciplineOf, Prod.mk.injEq] at hd
  obtain ⟨h1, h2, h3, h4, h5⟩ := hd
  unfold updateCounts
  rw [pitchStage_legacy _ _ h]
  by_cases hpc : 0 < ab.pitchCount
  · simp [hpc, h1, h2, h3, h4, h5]
  · have : ab.pitchCount = 0 := by omega
    simp [hpc, h1, h2, h3, h4, h5, this]

theorem sumDeltas_append (l₁ l₂ : List Entry) :
    sumDeltas (l₁ ++ l₂) = addCounts (sumDeltas l₁) (sumDeltas l₂) := by
  unfold sumDeltas
  rw [List.map_append, List.sum_append]
  rfl

theorem sumDeltas_partition (l : List Entry) (hLR : ∀ e ∈ l, e.2.1 = "L" ∨ e.2.1 = "R") :
    sumDeltas l =
      addCounts (sumDeltas (l.filter (fun e => e.2.1 == "L")))
        (sumDeltas (l.filter (fun e => e.2.1 == "R"))) := by
  have hcongr : l.filter (fun e => !(e.2.1 == "L")) = l.filter (fun e => e.2.1 == "R") := by
    apply List.filter_congr
    intro e he
    rcases hLR e he with h | h <;> rw [h] <;> rfl
  have hperm : (l.filter (fun e => e.2.1 == "L") ++
      l.filter (fun e => e.2.1 == "R")).Perm l := by
    rw [← hcongr]
    exact List.filter_append_perm _ l
  rw [← sumDeltas_perm hperm, sumDeltas_append]

theorem removeStale_idem (m : StatMap) : removeStale (removeStale m) = removeStale m := by
  funext k
  unfold removeStale
  by_cases h : k ∈ stale_keys <;> simp [h]

theorem map_removeStale_idem (x : Option StatMap) :
    (x.map removeStale).map removeStale = x.map removeStale := by
  cases x <;> simp [removeStale_idem]

theorem main_write_idem (m adv : StatMap) :
    writeAdv (removeStale (writeAdv (removeStale m) adv)) adv = writeAdv (removeStale m) adv := by
  funext k
  unfold writeAdv removeStale
  cases hk : adv k with
  | some v => simp
  | none => by_cases hs : k ∈ stale_keys <;> simp [hs, hk]

theorem orFold_cases {α β : Type} (g : β → Option α) (l : List β) (a : Option α) :
    (∀ a' : Option α,
        l.foldl (fun acc x => (g x).or acc) a' = l.foldl (fun acc x => (g x).or acc) a) ∨
      l.foldl (fun acc x => (g x).or acc) a = a := by
  induction l generalizing a with
  | nil => right; rfl
  | cons x t ih =>
    rcases ih ((g x).or a) with h | h
    · left
      intro a'
      exact h ((g x).or a')
    · cases hg : g x with
      | some v =>
        left
        intro a'
        show t.foldl _ ((g x).or a') = t.foldl _ ((g x).or a)
        rw [hg]
        rfl
      | none =>
        right
        show t.foldl _ ((g x).or a) = a
        rw [hg] at h ⊢
        exact h

theorem orFold_idem {α β : Type} (g : β → Option α) (l : List β) (b : Option α) :
    l.foldl (fun acc x => (g x).or acc) (l.foldl (fun acc x => (g x).or acc) b) =
      l.foldl (fun acc x => (g x).or acc) b := by
  rcases orFold_cases g l b with h | h
  · exact h _
  · rw [h]
    exact h

theorem orFold_none {α β : Type} (g : β → Option α) (l : List β) (a : Option α)
    (h : ∀ x ∈ l, g x = none) :
    l.foldl (fun acc x => (g x).or acc) a = a := by
  induction l generalizing a with
  | nil => rfl
  | cons x t ih =>
    show t.foldl _ ((g x).or a) = a
    rw [h x (List.mem_cons_self x t)]
    exact ih a (fun y hy => h y (List.mem_cons_of_mem x hy))

theorem splitWrites_point (l : List (String × List (String × ℚ))) (st : SplitStore)
    (n : String) :
    splitWrites st l n =
      l.foldl (fun acc pr =>
        (if pr.2 ≠ [] ∧ n = pr.1 then some (listToMap pr.2) else none).or acc) (st n) := by
  induction l generalizing st with
  | nil => rfl
  | cons pr t ih =>
    show splitWrites (splitWrite st pr) t n = _
    rw [ih]
    simp only [List.foldl_cons]
    congr 1
    unfold splitWrite
    by_cases h2 : pr.2 = []
    · simp [h2, Option.or]
    · by_cases hn : n = pr.1 <;> simp [h2, hn, Option.or]

theorem splitStore_idem (splits : List (String × List (String × ℚ))) (st₀ : SplitStore) :
    (fun n => (splitWrites
        (fun n' => ((splitWrites st₀ splits) n').map removeStale) splits n).map removeStale) =
      fun n => ((splitWrites st₀ splits) n).map removeStale := by
  funext n
  set S : SplitStore := fun n' => ((splitWrites st₀ splits) n').map removeStale with hS
  show (splitWrites S splits n).map removeStale = S n
  rcases orFold_cases
      (fun (pr : String × List (String × ℚ)) =>
        if pr.2 ≠ [] ∧ n = pr.1 then some (listToMap pr.2) else none) splits (S n) with h | h
  · have heq : splitWrites S splits n = splitWrites st₀ splits n := by
      rw [splitWrites_point splits S n, splitWrites_point splits st₀ n]
      exact (h (st₀ n)).symm
    rw [heq]
  · have heq : splitWrites S splits n = S n := by
      rw [splitWrites_point]
      exact h
    rw [heq]
    exact map_removeStale_idem _

theorem mergeVals_point (vs : List StatMap) (base : StatMap) (k : String) :
    (mergeVals base vs) k = vs.foldl (fun acc mp => (mp k).or acc) (base k) := by
  induction vs generalizing base with
  | nil => rfl
  | cons v t ih =>
    show (mergeVals (writeAdv base v) t) k = _
    rw [ih]
    simp only [List.foldl_cons]
    congr 1
    unfold writeAdv
    cases hv : v k <;> simp [Option.or]

theorem mergeVals_idem (vs : List StatMap) (base : StatMap) :
    mergeVals (mergeVals base vs) vs = mergeVals base vs := by
  funext k
  rw [mergeVals_point, mergeVals_point]
  exact orFold_idem _ vs (base k)

theorem byLevelWrites_point (l : List (String × List (String × ℚ))) (bl : SplitStore)
    (n : String) :
    byLevelWrites bl l n =
      if hitVals l n = [] then bl n
      else some (mergeVals ((bl n).getD emptyStatMap) ((hitVals l n).map listToMap)) := by
  induction l generalizing bl with
  | nil => simp [byLevelWrites, hitVals]
  | cons pr t ih =>
    show byLevelWrites (byLevelWrite bl pr) t n = _
    rw [ih]
    by_cases hn : pr.1 = n
    · have hv : hitVals (pr :: t) n = pr.2 :: hitVals t n := by
        simp [hitVals, List.filter_cons, hn]
      have hbl : byLevelWrite bl pr n =
          some (writeAdv ((bl n).getD emptyStatMap) (listToMap pr.2)) := by
        unfold byLevelWrite
        rw [if_pos hn.symm, hn]
      by_cases ht : hitVals t n = []
      · rw [if_pos ht, hbl, hv, if_neg (List.cons_ne_nil _ _), ht]
        rfl
      · rw [if_neg ht, hbl, hv, if_neg (List.cons_ne_nil _ _)]
        rfl
    · have hv : hitVals (pr :: t) n = hitVals t n := by
        simp [hitVals, List.filter_cons, hn]
      have hbl : byLevelWrite bl pr n = bl n := by
        unfold byLevelWrite
        rw [if_neg (fun hh => hn hh.symm)]
      rw [hv, hbl]

theorem byLevelStore_idem (lvls : List (String × List (String × ℚ))) (bl₀ : SplitStore) :
    byLevelWrites (byLevelWrites bl₀ lvls) lvls = byLevelWrites bl₀ lvls := by
  funext n
  conv_lhs => rw [byLevelWrites_point]
  by_cases hv : hitVals lvls n = []
  · rw [if_pos hv]
  · rw [if_neg hv, byLevelWrites_point, if_neg hv]
    simp only [Option.getD_some]
    rw [mergeVals_idem]

theorem updateGroup_idem (g : StatGroup) (adv : StatMap)
    (splits lvls : List (String × List (String × ℚ))) :
    updateGroup (updateGroup g adv splits lvls) adv splits lvls =
      updateGroup g adv splits lvls := by
  unfold updateGroup
  by_cases hsp : splits = [] <;> by_cases hlv : lvls = [] <;>
    simp only [hsp, hlv, reduceIte, Option.getD_some, StatGroup.mk.injEq] <;>
      refine ⟨congrArg some (main_write_idem _ _), ?_, ?_⟩ <;>
        first
          | trivial
          | exact congrArg some (splitStore_idem _ _)
          | exact congrArg some (byLevelStore_idem _ _)

theorem updateCountsE_ok (s : Counts) (ab : AtBat) (bh : String) :
    updateCountsE s ab bh = Except.ok (updateCounts s ab bh) := by
  unfold updateCountsE lastPitchE
  by_cases h : ab.pitches = []
  · rw [if_neg (by simp [h])]
    rfl
  · cases hgl : ab.pitches.getLast? with
    | none => exact absurd (List.getLast?_eq_none_iff.mp hgl) h
    | some p =>
      rw [if_pos h]
      rfl

theorem addAtBatE_ok (A : PlayerAdvancedStats) (ab : AtBat) (oh bh : String) :
    addAtBatE A ab oh bh = Except.ok (A.add_at_bat ab oh bh) := by
  cases A with
  | mk c l r =>
    unfold addAtBatE PlayerAdvancedStats.add_at_bat
    by_cases h1 : oh = "L"
    · cases l with
      | some child =>
        cases child
        simp only [h1, reduceIte, updateCountsE_ok, childAdd]
        rfl
      | none =>
        simp only [h1, reduceIte, updateCountsE_ok]
        rfl
    · by_cases h2 : oh = "R"
      · cases r with
        | some child =>
          cases child
          simp only [h1, h2, reduceIte, updateCountsE_ok, childAdd]
          rfl
        | none =>
          simp only [h1, h2, reduceIte, updateCountsE_ok]
          rfl
      · simp only [h1, h2, reduceIte, updateCountsE_ok]
        rfl

theorem gateE (cond : Prop) [Decidable cond] (num den : ℚ) (hden : cond → den ≠ 0) :
    gateCalc cond num den = Except.ok (if cond then some (round3 (num / den)) else none) := by
  unfold gateCalc
  by_cases hc : cond
  · rw [if_pos hc, if_pos hc]
    unfold divE
    rw [if_neg (hden hc)]
    rfl
  · rw [if_neg hc, if_neg hc]

theorem getStatsE_ok (c : Counts) (isB : Bool) (mb mp md : ℕ)
    (hb : 1 ≤ mb) (hp : 1 ≤ mp) (hd : 1 ≤ md) :
    getStatsE c isB mb mp md = Except.ok (get_stats c isB mb mp md) := by
  have hcast : ∀ k : ℕ, 0 < k → ((k : ℚ) ≠ 0) := by
    intro k hk
    exact_mod_cast hk.ne'
  have h1 : mb ≤ c.ground_balls + c.fly_balls + c.line_drives →
      (((c.ground_balls + c.fly_balls + c.line_drives : ℕ) : ℚ)) ≠ 0 :=
    fun hc => hcast _ (by omega)
  have h2 : mb ≤ c.ground_balls + c.fly_balls + c.line_drives ∧ 0 < c.fly_balls →
      ((c.fly_balls : ℚ)) ≠ 0 := fun hc => hcast _ hc.2
  have h3 : isB = true ∧ md ≤ c.bip_with_direction → ((c.bip_with_direction : ℚ)) ≠ 0 :=
    fun hc => hcast _ (by omega)
  have h4 : isB = true ∧ md ≤ c.air_balls_with_direction →
      ((c.air_balls_with_direction : ℚ)) ≠ 0 := fun hc => hcast _ (by omega)
  have h5 : c.has_pitch_data = true ∧ mp ≤ c.total_pitches → ((c.total_pitches : ℚ)) ≠ 0 :=
    fun hc => hcast _ (by omega)
  have h6 : c.has_pitch_data = true ∧ mp ≤ c.total_pitches ∧ 0 < c.swings →
      ((c.swings : ℚ)) ≠ 0 := fun hc => hcast _ hc.2.2
  unfold getStatsE get_stats
  rw [gateE _ _ _ h1, gateE _ _ _ h1, gateE _ _ _ h1, gateE _ _ _ h2, gateE _ _ _ h3,
    gateE _ _ _ h4, gateE _ _ _ h5, gateE _ _ _ h6, gateE _ _ _ h5]
  rfl

theorem round3_close (q : ℚ) : |round3 q - q| ≤ 1 / 2000 := by
  unfold round3
  have h : ((round (1000 * q) : ℤ) : ℚ) / 1000 - q =
      (((round (1000 * q) : ℤ) : ℚ) - 1000 * q) / 1000 := by ring
  rw [h, abs_div, abs_of_pos (by norm_num : (0 : ℚ) < 1000)]
  have hb := abs_sub_round (1000 * q)
  rw [abs_sub_comm] at hb
  rw [div_le_iff₀ (by norm_num : (0 : ℚ) < 1000)]
  norm_num
  linarith

theorem pitchStep_has (s : Counts) (p : Pitch) :
    (pitchStep s p).has_pitch_data = s.has_pitch_data := by
  unfold pitchStep
  split <;> rfl

theorem foldl_pitchStep_has (ps : List Pitch) (s : Counts) :
    (ps.foldl pitchStep s).has_pitch_data = s.has_pitch_data := by
  induction ps generalizing s with
  | nil => rfl
  | cons p t ih => rw [List.foldl_cons, ih, pitchStep_has]

theorem updateCounts_has (s : Counts) (ab : AtBat) (bh : String) :
    (updateCounts s ab bh).has_pitch_data =
      (s.has_pitch_data || decide (ab.pitches ≠ [])) := by
  have hd : disciplineOf (pullStage ab bh (bbStage ab s)) = disciplineOf s := by
    rw [pullStage_disciplineOf, bbStage_disciplineOf]
  simp only [disciplineOf, Prod.mk.injEq] at hd
  unfold updateCounts pitchStage
  by_cases h : ab.pitches = []
  · rw [if_neg (by simp [h])]
    have hfalse : (decide (ab.pitches ≠ [])) = false := by simp [h]
    rw [hfalse, Bool.or_false]
    by_cases hpc : 0 < ab.pitchCount
    · rw [if_pos hpc]
      exact hd.2.2.2.2
    · rw [if_neg hpc]
      exact hd.2.2.2.2
  · rw [if_pos h, foldl_pitchStep_has]
    have htrue : (decide (ab.pitches ≠ [])) = true := by simp [h]
    rw [htrue, Bool.or_true]

theorem entryDelta_has (e : Entry) (hne : e.1.pitches ≠ []) :
    (entryDelta e).has_pitch_data = true := by
  unfold entryDelta abDelta
  rw [updateCounts_has]
  simp [hne, initCounts]

theorem sumDeltas_has (l : List Entry) (hl : ∃ e' ∈ l, e'.1.pitches ≠ []) :
    (sumDeltas l).has_pitch_data = true := by
  obtain ⟨e', hmem, hne⟩ := hl
  induction l with
  | nil => cases hmem
  | cons x t ih =>
    rw [sumDeltas_cons]
    rcases List.mem_cons.mp hmem with heq | hmem'
    · subst heq
      simp [addCounts, entryDelta_has _ hne]
    · simp [addCounts, ih hmem']

theorem applyAll_counts (l : List Entry) : (applyAll initAcc l).counts = sumDeltas l := by
  rw [applyAll_initAcc]
  rfl

/-- C1 (counterexample): the spec's legacy approximation fallback does not
exist in the code.  For the legacy at-bat with `pitchCount=4, balls=1,
strikes=2, eventType="single"` and no pitch list, `add_at_bat` leaves
`swings`, `contacts` and CSW at zero — in particular `swings` is not
`pitchCount − balls = 3` — and only adds `pitchCount` to `total_pitches`. -/
theorem claim_c1_counterexample :
    abLegacyC1.pitchCount = 4 ∧ abLegacyC1.balls = 1 ∧ abLegacyC1.strikes = 2 ∧
    abLegacyC1.eventType = "single" ∧ abLegacyC1.pitches = [] ∧
    ¬ ((initAcc.add_at_bat abLegacyC1 "L" "R").counts.swings =
        abLegacyC1.pitchCount - abLegacyC1.balls) ∧
    (initAcc.add_at_bat abLegacyC1 "L" "R").counts.swings = 0 ∧
    (initAcc.add_at_bat abLegacyC1 "L" "R").counts.contacts = 0 ∧
    (initAcc.add_at_bat abLegacyC1 "L" "R").counts.called_strikes_whiffs = 0 ∧
    (initAcc.add_at_bat abLegacyC1 "L" "R").counts.total_pitches = 4 ∧
    (initAcc.add_at_bat abLegacyC1 "L" "R").counts.has_pitch_data = false := by
  decide

/-- C1 (amended): for every legacy at-bat (no pitch list), `add_at_bat` only
adds `pitchCount` to `total_pitches`; it performs no swing/contact/CSW
approximation — those counters and the `has_pitch_data` flag are left
unchanged (so `has_pitch_data` stays `false` on an accumulator fed only
legacy at-bats). -/
theorem claim_c1_legacy_no_approximation (A : PlayerAdvancedStats) (ab : AtBat)
    (oh bh : String) (h : ab.pitches = []) :
    (A.add_at_bat ab oh bh).counts.total_pitches = A.counts.total_pitches + ab.pitchCount ∧
    (A.add_at_bat ab oh bh).counts.swings = A.counts.swings ∧
    (A.add_at_bat ab oh bh).counts.contacts = A.counts.contacts ∧
    (A.add_at_bat ab oh bh).counts.called_strikes_whiffs = A.counts.called_strikes_whiffs ∧
    (A.add_at_bat ab oh bh).counts.has_pitch_data = A.counts.has_pitch_data := by
  have hleg := updateCounts_legacy A.counts ab bh h
  rw [counts_add_at_bat]
  exact hleg

/-- C1 (witness): the amended claim at the concrete Scenario C at-bat. -/
theorem claim_c1_witness :
    abLegacyC1.pitches = [] ∧
    ((initAcc.add_at_bat abLegacyC1 "L" "R").counts.total_pitches =
        initAcc.counts.total_pitches + abLegacyC1.pitchCount ∧
      (initAcc.add_at_bat abLegacyC1 "L" "R").counts.swings = initAcc.counts.swings ∧
      (initAcc.add_at_bat abLegacyC1 "L" "R").counts.contacts = initAcc.counts.contacts ∧
      (initAcc.add_at_bat abLegacyC1 "L" "R").counts.called_strikes_whiffs =
        initAcc.counts.called_strikes_whiffs ∧
      (initAcc.add_at_bat abLegacyC1 "L" "R").counts.has_pitch_data =
        initAcc.counts.has_pitch_data) :=
  ⟨rfl, claim_c1_legacy_no_approximation initAcc abLegacyC1 "L" "R" rfl⟩

/-- C2 (counterexample): `event-type == home_run` does not classify as FB
regardless of other signals: a final-pitch trajectory `ground_ball` takes
precedence, the at-bat is classified GB and the home-run counter is not
incremented. -/
theorem claim_c2_counterexample :
    abHRGB.eventType = "home_run" ∧
    (initAcc.add_at_bat abHRGB "L" "R").counts.ground_balls = 1 ∧
    (initAcc.add_at_bat abHRGB "L" "R").counts.fly_balls = 0 ∧
    (initAcc.add_at_bat abHRGB "L" "R").counts.home_runs = 0 := by
  decide

/-- C2 (amended): for a home-run at-bat, `add_at_bat` classifies FB and
increments the home-run counter whenever the final-pitch trajectory itself
classifies FB, or no trajectory classification applies and the result label
is non-empty and in neither the groundout nor the lineout set; in particular
Scenario B (trajectory `fly_ball` + event `home_run`) increments both the FB
count and the HR/FB numerator and denominator. -/
theorem claim_c2_home_run_fb (A : PlayerAdvancedStats) (ab : AtBat) (oh bh : String)
    (hhr : ab.eventType = "home_run")
    (hclass : classify_batted_ball_from_trajectory (lastTrajectory ab) = some BBType.FB ∨
      (classify_batted_ball_from_trajectory (lastTrajectory ab) = none ∧
        ab.result ≠ "" ∧ ab.result ∉ GROUNDBALL_RESULTS ∧ ab.result ∉ LINEDRIVE_RESULTS)) :
    (A.add_at_bat ab oh bh).counts.fly_balls = A.counts.fly_balls + 1 ∧
    (A.add_at_bat ab oh bh).counts.home_runs = A.counts.home_runs + 1 := by
  have hbb : abBBType ab = some BBType.FB := by
    unfold abBBType
    rcases hclass with h | ⟨h0, h1, h2, h3⟩
    · rw [h]
    · rw [h0]
      unfold classify_batted_ball_from_result
      rw [if_neg h1, if_neg h2]
      by_cases hfb : ab.result ∈ FLYBALL_RESULTS
      · rw [if_pos hfb]
      · rw [if_neg hfb, if_neg h3, if_pos hhr]
  have hfields := updateCounts_bbOf A.counts ab bh
  simp only [bbOf, Prod.mk.injEq] at hfields
  obtain ⟨_, hf, _, hh⟩ := hfields
  constructor
  · rw [counts_add_at_bat, hf]
    simp [bbStage, hbb]
  · rw [counts_add_at_bat, hh]
    simp [bbStage, hbb, hhr]

/-- C2 (witness): Scenario B at the concrete at-bat with final-pitch
trajectory `fly_ball` and event-type `home_run`. -/
theorem claim_c2_witness :
    classify_batted_ball_from_trajectory (lastTrajectory abHRFB) = some BBType.FB ∧
    ((initAcc.add_at_bat abHRFB "L" "R").counts.fly_balls = initAcc.counts.fly_balls + 1 ∧
      (initAcc.add_at_bat abHRFB "L" "R").counts.home_runs = initAcc.counts.home_runs + 1) :=
  ⟨by decide, claim_c2_home_run_fb initAcc abHRFB "L" "R" (by decide) (Or.inl (by decide))⟩

/-- C3 (counterexample): a hit at-bat with no trajectory data and a result
label in no fixed set is not always unclassifiable: the description parser
classifies this single as GB from the phrase `ground ball` and increments
the GB counter. -/
theorem claim_c3_counterexample :
    abSingleDesc.eventType = "single" ∧ abSingleDesc.pitches = [] ∧
    abSingleDesc.result ∉ GROUNDBALL_RESULTS ∧ abSingleDesc.result ∉ FLYBALL_RESULTS ∧
    abSingleDesc.result ∉ LINEDRIVE_RESULTS ∧
    abBBType abSingleDesc = some BBType.GB ∧
    (initAcc.add_at_bat abSingleDesc "L" "R").counts.ground_balls = 1 := by
  decide

/-- C3 (amended): a hit at-bat (single/double/triple) with no final-pitch
trajectory, a result label in none of the fixed out sets, and a description
containing none of the trajectory phrases (`ground ball`, `line drive`,
`fly ball`, `pop up`) classifies to none, and no GB/FB/LD/HR counter is
incremented — it is excluded from the classifiable-BIP denominator. -/
theorem claim_c3_unclassifiable_hit (A : PlayerAdvancedStats) (ab : AtBat) (oh bh : String)
    (hev : ab.eventType = "single" ∨ ab.eventType = "double" ∨ ab.eventType = "triple")
    (htraj : lastTrajectory ab = none)
    (hr1 : ab.result ∉ GROUNDBALL_RESULTS) (hr2 : ab.result ∉ FLYBALL_RESULTS)
    (hr3 : ab.result ∉ LINEDRIVE_RESULTS)
    (hd1 : strHasSub (lowerStr ab.description) "ground ball" = false)
    (hd2 : strHasSub (lowerStr ab.description) "line drive" = false)
    (hd3 : strHasSub (lowerStr ab.description) "fly ball" = false)
    (hd4 : strHasSub (lowerStr ab.description) "pop up" = false) :
    abBBType ab = none ∧
    bbOf (A.add_at_bat ab oh bh).counts = bbOf A.counts := by
  have hnothr : ab.eventType ≠ "home_run" := by
    rcases hev with h | h | h <;> rw [h] <;> decide
  have hbb : abBBType ab = none := by
    unfold abBBType
    rw [htraj]
    simp only [classify_batted_ball_from_trajectory]
    unfold classify_batted_ball_from_result
    by_cases h0 : ab.result = ""
    · rw [if_pos h0]
    · rw [if_neg h0, if_neg hr1, if_neg hr2, if_neg hr3, if_neg hnothr]
      by_cases hdesc : ab.eventType ∈ HIT_EVENTS ∧ ab.description ≠ ""
      · rw [if_pos hdesc]
        simp only [hd1, hd2, hd3, hd4, Bool.false_eq_true, if_false, or_self]
      · rw [if_neg hdesc]
  refine ⟨hbb, ?_⟩
  rw [counts_add_at_bat, updateCounts_bbOf]
  simp [bbStage, bbOf, hbb]

/-- C3 (witness): the amended claim at a concrete single with a plain
description. -/
theorem claim_c3_witness :
    abBBType abSinglePlain = none ∧
    bbOf (initAcc.add_at_bat abSinglePlain "L" "R").counts = bbOf initAcc.counts :=
  claim_c3_unclassifiable_hit initAcc abSinglePlain "L" "R" (Or.inl rfl) rfl
    (by decide) (by decide) (by decide) (by decide) (by decide) (by decide) (by decide)

/-- C4 (counterexample): `update_player_advanced_stats` does not remove every
previously written advanced-stat key the recomputation did not reproduce:
recomputing with an empty stats dictionary leaves a stale `GB%` in place,
because only the fixed keys Swing%/Contact%/CSW%/Whiff% are ever popped. -/
theorem claim_c4_counterexample :
    emptyStatMap "GB%" = none ∧
    ((update_player_advanced_stats pStale emptyStatMap [] true []).batting.main.getD
        emptyStatMap) "GB%" = some (3 : ℚ) := by
  constructor
  · rfl
  · decide

/-- C4 (amended): before writing, `update_player_advanced_stats` removes only
the fixed stale keys (`Swing%`, `Contact%`, `CSW%`, `Whiff%`): they are
popped from the main stats object and — when a non-empty splits argument is
given — from every stored split object; an advanced-stat key outside that
list that the recomputation did not reproduce survives unchanged in the main
stats, and by-level objects receive no stale-key cleanup at all: any by-level
key the written level stats do not provide keeps its previous value, whether
the level is re-written or not. -/
theorem claim_c4_stale_cleanup (p : PlayerData) (adv : StatMap)
    (splits lvls : List (String × List (String × ℚ))) (st : Bool) (k : String)
    (hk : k ∉ stale_keys) (hadv : adv k = none) :
    ((groupOf (update_player_advanced_stats p adv splits st lvls) st).main.getD
        emptyStatMap) k = ((groupOf p st).main.getD emptyStatMap) k ∧
    (∀ ks ∈ stale_keys, adv ks = none →
      ((groupOf (update_player_advanced_stats p adv splits st lvls) st).main.getD
          emptyStatMap) ks = none) ∧
    (lvls = [] → (groupOf (update_player_advanced_stats p adv splits st lvls) st).byLevel =
      (groupOf p st).byLevel) ∧
    (splits ≠ [] → ∀ (n : String) (m : StatMap),
      ((groupOf (update_player_advanced_stats p adv splits st lvls) st).splitsStore.getD
          emptySplitStore) n = some m →
      ∀ ks ∈ stale_keys, m ks = none) ∧
    (∀ n kk : String,
      (∀ pr ∈ lvls, pr.1 = n → listToMap pr.2 kk = none) →
      ((((groupOf (update_player_advanced_stats p adv splits st lvls) st).byLevel.getD
            emptySplitStore) n).getD emptyStatMap) kk =
        ((((groupOf p st).byLevel.getD emptySplitStore) n).getD emptyStatMap) kk) := by
  have hgrp : groupOf (update_player_advanced_stats p adv splits st lvls) st =
      updateGroup (groupOf p st) adv splits lvls := by
    cases st <;> simp [groupOf, update_player_advanced_stats]
  rw [hgrp]
  unfold updateGroup
  refine ⟨?_, ?_, ?_, ?_, ?_⟩
  · simp only [Option.getD_some]
    unfold writeAdv removeStale
    simp [hadv, hk]
  · intro ks hks hadvks
    simp only [Option.getD_some]
    unfold writeAdv removeStale
    simp [hadvks, hks]
  · intro hlv
    simp [hlv]
  · intro hsp n m hm ks hks
    rw [if_neg hsp] at hm
    simp only [Option.getD_some] at hm
    cases hw : (splitWrites ((groupOf p st).splitsStore.getD emptySplitStore) splits) n with
    | none =>
      rw [hw] at hm
      cases hm
    | some m₀ =>
      rw [hw] at hm
      have hmm : removeStale m₀ = m := by
        simpa using hm
      rw [← hmm]
      unfold removeStale
      rw [if_pos hks]
  · intro n kk hnone
    by_cases hlv : lvls = []
    · rw [if_pos hlv]
    · rw [if_neg hlv]
      simp only [Option.getD_some]
      rw [byLevelWrites_point]
      by_cases hh : hitVals lvls n = []
      · rw [if_pos hh]
      · rw [if_neg hh]
        simp only [Option.getD_some]
        rw [mergeVals_point]
        have hall : ∀ mp ∈ (hitVals lvls n).map listToMap, mp kk = none := by
          intro mp hmp
          obtain ⟨v, hv, hveq⟩ := List.mem_map.mp hmp
          obtain ⟨pr, hpr, hpreq⟩ := List.mem_map.mp hv
          have hprl := List.mem_filter.mp hpr
          have hp1 : pr.1 = n := by
            have := hprl.2
            simpa using this
          rw [← hveq, ← hpreq]
          exact hnone pr hprl.1 hp1
        exact orFold_none (fun (mp : StatMap) => mp kk) _ _ hall

/-- C4 (witness): the amended claim at the concrete record holding a stale
`GB%`, an empty recomputation, a non-empty splits argument and a level-stats
argument writing only `FB%`. -/
theorem claim_c4_witness :
    "GB%" ∉ stale_keys ∧
    (((groupOf (update_player_advanced_stats pStale emptyStatMap splitsArgW true lvlsArgW)
          true).main.getD emptyStatMap) "GB%" =
        ((groupOf pStale true).main.getD emptyStatMap) "GB%" ∧
      (∀ ks ∈ stale_keys, emptyStatMap ks = none →
        ((groupOf (update_player_advanced_stats pStale emptyStatMap splitsArgW true lvlsArgW)
            true).main.getD emptyStatMap) ks = none) ∧
      (lvlsArgW = [] →
        (groupOf (update_player_advanced_stats pStale emptyStatMap splitsArgW true lvlsArgW)
            true).byLevel = (groupOf pStale true).byLevel) ∧
      (splitsArgW ≠ [] → ∀ (n : String) (m : StatMap),
        ((groupOf (update_player_advanced_stats pStale emptyStatMap splitsArgW true lvlsArgW)
            true).splitsStore.getD emptySplitStore) n = some m →
        ∀ ks ∈ stale_keys, m ks = none) ∧
      (∀ n kk : String,
        (∀ pr ∈ lvlsArgW, pr.1 = n → listToMap pr.2 kk = none) →
        ((((groupOf (update_player_advanced_stats pStale emptyStatMap splitsArgW true
              lvlsArgW) true).byLevel.getD emptySplitStore) n).getD emptyStatMap) kk =
          ((((groupOf pStale true).byLevel.getD emptySplitStore) n).getD
            emptyStatMap) kk)) :=
  ⟨by decide,
    claim_c4_stale_cleanup pStale emptyStatMap splitsArgW lvlsArgW true "GB%"
      (by decide) rfl⟩

/-- C5: with exactly `minBip − 1` classifiable balls in play, `get_stats`
emits none of GB%, FB%, LD%; with exactly `minBip` (for `minBip ≥ 1`), all
three are present and their sum is within `3/2000` of 1 (rounding to three
decimals); the integer `BIP` count is emitted in both cases. -/
theorem claim_c5_gating (c c' : Counts) (isB isB' : Bool) (mb mp md mp' md' : ℕ)
    (hb : 1 ≤ mb)
    (hlow : c.ground_balls + c.fly_balls + c.line_drives + 1 = mb)
    (hhi : c'.ground_balls + c'.fly_balls + c'.line_drives = mb) :
    ((get_stats c isB mb mp md).gbPct = none ∧
      (get_stats c isB mb mp md).fbPct = none ∧
      (get_stats c isB mb mp md).ldPct = none ∧
      (get_stats c isB mb mp md).BIP + 1 = mb) ∧
    (∃ x y z : ℚ,
      (get_stats c' isB' mb mp' md').gbPct = some x ∧
      (get_stats c' isB' mb mp' md').fbPct = some y ∧
      (get_stats c' isB' mb mp' md').ldPct = some z ∧
      |x + y + z - 1| ≤ 3 / 2000 ∧
      (get_stats c' isB' mb mp' md').BIP = mb) := by
  constructor
  · have hlt : ¬ (mb ≤ c.ground_balls + c.fly_balls + c.line_drives) := by omega
    refine ⟨?_, ?_, ?_, ?_⟩ <;> simp [get_stats, hlt]
    omega
  · have hge : mb ≤ c'.ground_balls + c'.fly_balls + c'.line_drives := le_of_eq hhi.symm
    have hpos : 0 < c'.ground_balls + c'.fly_balls + c'.line_drives := by omega
    have hn0 : ((c'.ground_balls + c'.fly_balls + c'.line_drives : ℕ) : ℚ) ≠ 0 := by
      exact_mod_cast hpos.ne'
    refine ⟨round3 ((c'.ground_balls : ℚ) /
        ((c'.ground_balls + c'.fly_balls + c'.line_drives : ℕ) : ℚ)),
      round3 ((c'.fly_balls : ℚ) /
        ((c'.ground_balls + c'.fly_balls + c'.line_drives : ℕ) : ℚ)),
      round3 ((c'.line_drives : ℚ) /
        ((c'.ground_balls + c'.fly_balls + c'.line_drives : ℕ) : ℚ)),
      ?_, ?_, ?_, ?_, ?_⟩
    · simp [get_stats, hge]
    · simp [get_stats, hge]
    · simp [get_stats, hge]
    · have hsum : (c'.ground_balls : ℚ) /
            ((c'.ground_balls + c'.fly_balls + c'.line_drives : ℕ) : ℚ) +
          (c'.fly_balls : ℚ) /
            ((c'.ground_balls + c'.fly_balls + c'.line_drives : ℕ) : ℚ) +
          (c'.line_drives : ℚ) /
            ((c'.ground_balls + c'.fly_balls + c'.line_drives : ℕ) : ℚ) = 1 := by
        rw [div_add_div_same, div_add_div_same]
        rw [show ((c'.ground_balls : ℚ) + (c'.fly_balls : ℚ) + (c'.line_drives : ℚ)) =
            ((c'.ground_balls + c'.fly_balls + c'.line_drives : ℕ) : ℚ) by push_cast; ring]
        exact div_self hn0
      have h1 := round3_close ((c'.ground_balls : ℚ) /
        ((c'.ground_balls + c'.fly_balls + c'.line_drives : ℕ) : ℚ))
      have h2 := round3_close ((c'.fly_balls : ℚ) /
        ((c'.ground_balls + c'.fly_balls + c'.line_drives : ℕ) : ℚ))
      have h3 := round3_close ((c'.line_drives : ℚ) /
        ((c'.ground_balls + c'.fly_balls + c'.line_drives : ℕ) : ℚ))
      have habs := abs_add
        (round3 ((c'.ground_balls : ℚ) /
            ((c'.ground_balls + c'.fly_balls + c'.line_drives : ℕ) : ℚ)) -
          (c'.ground_balls : ℚ) /
            ((c'.ground_balls + c'.fly_balls + c'.line_drives : ℕ) : ℚ))
        ((round3 ((c'.fly_balls : ℚ) /
            ((c'.ground_balls + c'.fly_balls + c'.line_drives : ℕ) : ℚ)) -
          (c'.fly_balls : ℚ) /
            ((c'.ground_balls + c'.fly_balls + c'.line_drives : ℕ) : ℚ)) +
         (round3 ((c'.line_drives : ℚ) /
            ((c'.ground_balls + c'.fly_balls + c'.line_drives : ℕ) : ℚ)) -
          (c'.line_drives : ℚ) /
            ((c'.ground_balls + c'.fly_balls + c'.line_drives : ℕ) : ℚ)))
      have habs2 := abs_add
        (round3 ((c'.fly_balls : ℚ) /
            ((c'.ground_balls + c'.fly_balls + c'.line_drives : ℕ) : ℚ)) -
          (c'.fly_balls : ℚ) /
            ((c'.ground_balls + c'.fly_balls + c'.line_drives : ℕ) : ℚ))
        (round3 ((c'.line_drives : ℚ) /
            ((c'.ground_balls + c'.fly_balls + c'.line_drives : ℕ) : ℚ)) -
          (c'.line_drives : ℚ) /
            ((c'.ground_balls + c'.fly_balls + c'.line_drives : ℕ) : ℚ))
      have hrw : round3 ((c'.ground_balls : ℚ) /
            ((c'.ground_balls + c'.fly_balls + c'.line_drives : ℕ) : ℚ)) +
          round3 ((c'.fly_balls : ℚ) /
            ((c'.ground_balls + c'.fly_balls + c'.line_drives : ℕ) : ℚ)) +
          round3 ((c'.line_drives : ℚ) /
            ((c'.ground_balls + c'.fly_balls + c'.line_drives : ℕ) : ℚ)) - 1 =
          (round3 ((c'.ground_balls : ℚ) /
              ((c'.ground_balls + c'.fly_balls + c'.line_drives : ℕ) : ℚ)) -
            (c'.ground_balls : ℚ) /
              ((c'.ground_balls + c'.fly_balls + c'.line_drives : ℕ) : ℚ)) +
          ((round3 ((c'.fly_balls : ℚ) /
              ((c'.ground_balls + c'.fly_balls + c'.line_drives : ℕ) : ℚ)) -
            (c'.fly_balls : ℚ) /
              ((c'.ground_balls + c'.fly_balls + c'.line_drives : ℕ) : ℚ)) +
           (round3 ((c'.line_drives : ℚ) /
              ((c'.ground_balls + c'.fly_balls + c'.line_drives : ℕ) : ℚ)) -
            (c'.line_drives : ℚ) /
              ((c'.ground_balls + c'.fly_balls + c'.line_drives : ℕ) : ℚ))) := by
        rw [← hsum]
        ring
      rw [hrw]
      calc _ ≤ _ := habs
        _ ≤ 1 / 2000 + (1 / 2000 + 1 / 2000) := by
          have := le_trans habs2 (add_le_add h2 h3)
          exact add_le_add h1 this
        _ = 3 / 2000 := by norm_num
    · simp [get_stats, hhi]

/-- C6: the aggregation pipeline is order-independent: for any permutation of
the game list (and of the at-bats within each game), `process_games_for_stats`
and `process_games_per_game` produce identical results for every player in
every view (overall, by-level and per-game, for batters and pitchers). -/
theorem claim_c6_order_independence {gs₁ gs₂ : List Game} (h : GamesEquiv gs₁ gs₂) :
    process_games_for_stats gs₁ = process_games_for_stats gs₂ ∧
    process_games_per_game gs₁ = process_games_per_game gs₂ := by
  have hT := flatTagged_perm h
  have hP := flatPG_perm h
  constructor
  · refine PipeState.ext ?_ ?_ ?_ ?_
    · funext k
      rw [pgs_batterStats, pgs_batterStats]
      exact applyAll_initAcc_perm (selEntries_perm _ hT k)
    · funext k
      rw [pgs_pitcherStats, pgs_pitcherStats]
      exact applyAll_initAcc_perm (selEntries_perm _ hT k)
    · funext pid lvl
      rw [pgs_batterByLevel, pgs_batterByLevel]
      exact applyAll_initAcc_perm (selEntries_perm _ hT (pid, lvl))
    · funext pid lvl
      rw [pgs_pitcherByLevel, pgs_pitcherByLevel]
      exact applyAll_initAcc_perm (selEntries_perm _ hT (pid, lvl))
  · refine PerGameState.ext ?_ ?_
    · funext pid gpk
      rw [ppg_batterPerGame, ppg_batterPerGame]
      exact applyAll_initAcc_perm (selEntries_perm _ hP (pid, gpk))
    · funext pid gpk
      rw [ppg_pitcherPerGame, ppg_pitcherPerGame]
      exact applyAll_initAcc_perm (selEntries_perm _ hP (pid, gpk))

/-- C6 (witness): swapping two concrete games and the at-bats inside the
first yields identical pipeline results. -/
theorem claim_c6_witness :
    process_games_for_stats [gW1, gW2] = process_games_for_stats [gW2, gW1s] ∧
    process_games_per_game [gW1, gW2] = process_games_per_game [gW2, gW1s] :=
  claim_c6_order_independence
    ⟨[gW1s, gW2],
      List.Forall₂.cons ⟨rfl, rfl, List.Perm.swap abK abLegacyC1 []⟩
        (List.Forall₂.cons ⟨rfl, rfl, List.Perm.refl _⟩ List.Forall₂.nil),
      List.Perm.swap gW2 gW1s []⟩

/-- C7: `update_player_advanced_stats` is idempotent: calling it twice in a
row with the same arguments leaves the persisted record in exactly the same
state as calling it once. -/
theorem claim_c7_merge_idempotent (p : PlayerData) (adv : StatMap)
    (splits lvls : List (String × List (String × ℚ))) (st : Bool) :
    update_player_advanced_stats
        (update_player_advanced_stats p adv splits st lvls) adv splits st lvls =
      update_player_advanced_stats p adv splits st lvls := by
  cases st <;> simp [update_player_advanced_stats, updateGroup_idem]

/-- C8: split additivity.  Feeding a list of at-bats to a fresh accumulator
yields a root of the shape `__init__` produces — its split children hold no
splits of their own — whose root counters are the sum of all contributions
(so at-bats with a missing or switch opponent hand are counted in the root),
whose `vsLeft`/`vsRight` counters are the sums over exactly the `L`- and
`R`-handed entries, and, when every opponent hand is `L` or `R`, the root
counters are the exact sum of the two split counters. -/
theorem claim_c8_split_additivity (l : List Entry) :
    applyAll initAcc l =
      mkRoot (sumDeltas l) (sumDeltas (l.filter (fun e => e.2.1 == "L")))
        (sumDeltas (l.filter (fun e => e.2.1 == "R"))) ∧
    ((∀ e ∈ l, e.2.1 = "L" ∨ e.2.1 = "R") →
      sumDeltas l =
        addCounts (sumDeltas (l.filter (fun e => e.2.1 == "L")))
          (sumDeltas (l.filter (fun e => e.2.1 == "R")))) :=
  ⟨applyAll_initAcc l, fun h => sumDeltas_partition l h⟩

/-- C8 (witness): the partition at a concrete list with only `L`/`R`
opponent hands. -/
theorem claim_c8_witness :
    applyAll initAcc lLR =
      mkRoot (sumDeltas lLR) (sumDeltas (lLR.filter (fun e => e.2.1 == "L")))
        (sumDeltas (lLR.filter (fun e => e.2.1 == "R"))) ∧
    sumDeltas lLR =
      addCounts (sumDeltas (lLR.filter (fun e => e.2.1 == "L")))
        (sumDeltas (lLR.filter (fun e => e.2.1 == "R"))) :=
  ⟨(claim_c8_split_additivity lLR).1, (claim_c8_split_additivity lLR).2 (by decide)⟩

/-- C9: graceful degradation.  For every at-bat — including ones with missing
hands, trajectory, coordinate or pitch list — the exception-explicit
`add_at_bat` returns `ok` (never raises), and for every counter snapshot the
exception-explicit `get_stats` returns `ok` under positive minimum-sample
gates: every division it performs has a positive denominator, so no rate is
produced by a division by zero (and over `ℚ` no `NaN` exists). -/
theorem claim_c9_no_exceptions (A : PlayerAdvancedStats) (ab : AtBat) (oh bh : String)
    (c : Counts) (isB : Bool) (mb mp md : ℕ) (hb : 1 ≤ mb) (hp : 1 ≤ mp) (hd : 1 ≤ md) :
    addAtBatE A ab oh bh = Except.ok (A.add_at_bat ab oh bh) ∧
    getStatsE c isB mb mp md = Except.ok (get_stats c isB mb mp md) :=
  ⟨addAtBatE_ok A ab oh bh, getStatsE_ok c isB mb mp md hb hp hd⟩

/-- C9 (witness): the at-bat with every optional field missing, and the
default gates. -/
theorem claim_c9_witness :
    addAtBatE initAcc abBare "" "" = Except.ok (initAcc.add_at_bat abBare "" "") ∧
    getStatsE cAtGate true 10 50 10 = Except.ok (get_stats cAtGate true 10 50 10) :=
  claim_c9_no_exceptions initAcc abBare "" "" cAtGate true 10 50 10
    (by decide) (by decide) (by decide)

/-- C10: mixed pitch-level and legacy data.  If some at-bat in the list
carries a pitch list, the accumulator's `has_pitch_data` flag is true even
after appending a legacy at-bat; the legacy at-bat's `pitchCount` is still
added to `total_pitches` while `swings`, `contacts` and CSW are unchanged —
so the Swing%/Contact%/CSW% denominators of a mixed accumulator include
legacy pitches that can never appear in the numerators. -/
theorem claim_c10_mixed_legacy (l : List Entry) (e : Entry)
    (hl : ∃ e' ∈ l, e'.1.pitches ≠ []) (he : e.1.pitches = []) :
    (applyAll initAcc (l ++ [e])).counts.has_pitch_data = true ∧
    (applyAll initAcc (l ++ [e])).counts.total_pitches =
      (applyAll initAcc l).counts.total_pitches + e.1.pitchCount ∧
    (applyAll initAcc (l ++ [e])).counts.swings = (applyAll initAcc l).counts.swings ∧
    (applyAll initAcc (l ++ [e])).counts.contacts = (applyAll initAcc l).counts.contacts ∧
    (applyAll initAcc (l ++ [e])).counts.called_strikes_whiffs =
      (applyAll initAcc l).counts.called_strikes_whiffs := by
  have happ : applyAll initAcc (l ++ [e]) =
      (applyAll initAcc l).add_at_bat e.1 e.2.1 e.2.2 := by
    rw [applyAll_append]
    rfl
  have hleg := updateCounts_legacy (applyAll initAcc l).counts e.1 e.2.2 he
  have hflag : (applyAll initAcc l).counts.has_pitch_data = true := by
    rw [applyAll_counts]
    exact sumDeltas_has l hl
  refine ⟨?_, ?_, ?_, ?_, ?_⟩ <;> rw [happ, counts_add_at_bat]
  · rw [hleg.2.2.2.2, hflag]
  · exact hleg.1
  · exact hleg.2.1
  · exact hleg.2.2.1
  · exact hleg.2.2.2.1

/-- C10 (witness): a mixed list containing a pitch-level at-bat followed by
the legacy Scenario C at-bat. -/
theorem claim_c10_witness :
    (applyAll initAcc (lMixed ++ [(abLegacyC1, "L", "R")])).counts.has_pitch_data = true ∧
    (applyAll initAcc (lMixed ++ [(abLegacyC1, "L", "R")])).counts.total_pitches =
      (applyAll initAcc lMixed).counts.total_pitches + abLegacyC1.pitchCount ∧
    (applyAll initAcc (lMixed ++ [(abLegacyC1, "L", "R")])).counts.swings =
      (applyAll initAcc lMixed).counts.swings ∧
    (applyAll initAcc (lMixed ++ [(abLegacyC1, "L", "R")])).counts.contacts =
      (applyAll initAcc lMixed).counts.contacts ∧
    (applyAll initAcc (lMixed ++ [(abLegacyC1, "L", "R")])).counts.called_strikes_whiffs =
      (applyAll initAcc lMixed).counts.called_strikes_whiffs :=
  claim_c10_mixed_legacy lMixed (abLegacyC1, "L", "R") (by decide) rfl

/-- C5 (witness): the gating boundary at `minBip = 10` with concrete
snapshots holding 9 and 10 classifiable balls in play. -/
theorem claim_c5_witness :
    ((get_stats cBelowGate true 10 50 10).gbPct = none ∧
      (get_stats cBelowGate true 10 50 10).fbPct = none ∧
      (get_stats cBelowGate true 10 50 10).ldPct = none ∧
      (get_stats cBelowGate true 10 50 10).BIP + 1 = 10) ∧
    (∃ x y z : ℚ,
      (get_stats cAtGate true 10 50 10).gbPct = some x ∧
      (get_stats cAtGate true 10 50 10).fbPct = some y ∧
      (get_stats cAtGate true 10 50 10).ldPct = some z ∧
      |x + y + z - 1| ≤ 3 / 2000 ∧
      (get_stats cAtGate true 10 50 10).BIP = 10) :=
  claim_c5_gating cBelowGate cAtGate true true 10 50 10 50 10
    (by decide) (by decide) (by decide)
